import Mathlib

/-!
Verification development for the S1 NRB product-assembly pipeline
(S1_NRB/processor.py, function nrb_processing).

The code is shallowly embedded: Python strings become Lean String,
lists become List, the file system becomes a list of existing paths,
and each output-file creation of the assembly becomes an explicit
event.  External collaborators (pyroSAR, spatialist/GDAL geometry and
raster IO, the S1_NRB.ancillary and metadata helpers, which are not
part of the sources under inspection) enter as parameters of a World
structure, documented at their declaration.
-/

namespace S1NRB

/-- A single-quote character, built numerically so string literals in this
file never need to embed a quote character. -/
def sq : Char := Char.ofNat 39

/-- The single-quote character as a one-character string. -/
def qs : String := String.singleton sq

/-- Python repr of a string: Python prefers single quotes and switches to
double quotes when the string contains a single quote and no double
quote.  Escaping of strings containing both quote kinds, backslashes or
control characters is outside the inputs handled here (polarization
tokens and file paths) and is not modelled. -/
def pyRepr (s : String) : String :=
  if s.toList.contains sq && !(s.toList.contains '"') then "\"" ++ s ++ "\""
  else qs ++ s ++ qs

/-- Python str.join over a list of strings. -/
def pyJoin (sep : String) : List String → String
  | [] => ""
  | [x] => x
  | x :: y :: rest => x ++ sep ++ pyJoin sep (y :: rest)

/-- Python str(list-of-strings): brackets around the comma-joined reprs of
the elements. -/
def pyStrList (xs : List String) : String :=
  "[" ++ pyJoin ", " (xs.map pyRepr) ++ "]"

/-- Worker for pyReplace.  The Nat argument counts characters still to be
skipped because they belong to an already-replaced occurrence of the
pattern. -/
def replAux (pat repl : List Char) : Nat → List Char → List Char
  | _, [] => []
  | k + 1, _ :: rest => replAux pat repl k rest
  | 0, c :: rest =>
    if pat.isPrefixOf (c :: rest) then repl ++ replAux pat repl (pat.length - 1) rest
    else c :: replAux pat repl 0 rest

/-- Python str.replace: replace every non-overlapping occurrence of pat,
scanning left to right.  The empty-pattern case of Python (insertion
between characters) never occurs in the embedded code. -/
def pyReplace (s pat repl : String) : String :=
  if pat.toList.isEmpty then s
  else (replAux pat.toList repl.toList 0 s.toList).asString

/-- Worker for basename: keep the characters seen since the last path
separator. -/
def basenameAux : List Char → List Char → List Char
  | cur, [] => cur.reverse
  | cur, c :: rest => if c = '/' then basenameAux [] rest else basenameAux (c :: cur) rest

/-- os.path.basename on a POSIX path. -/
def basename (s : String) : String :=
  (basenameAux [] s.toList).asString

/-- The stem of os.path.splitext applied to a basename: cut at the last
dot, except when every character before that dot is itself a dot (the
hidden-file rule of the Python implementation). -/
def splitextBase (name : String) : String :=
  let cs := name.toList
  match cs.reverse.findIdx? (· = '.') with
  | none => name
  | some j =>
    let pos := cs.length - 1 - j
    if (cs.take pos).all (· = '.') then name else (cs.take pos).asString

/-- os.path.join for the relative components used by the code. -/
def pjoin (a b : String) : String := a ++ "/" ++ b

/-- Lowercase a string character-wise (str.lower of the code; all inputs
are ASCII). -/
def lowerStr (s : String) : String := (s.toList.map Char.toLower).asString

/-- Uppercase a string character-wise (str.upper of the code). -/
def upperStr (s : String) : String := (s.toList.map Char.toUpper).asString

/-- Worker for containsSub: does pat occur as a contiguous run in the
character list. -/
def containsSubL (pat : List Char) : List Char → Bool
  | [] => pat.isEmpty
  | c :: rest => pat.isPrefixOf (c :: rest) || containsSubL pat rest

/-- Is pat a contiguous substring of s (re.search of a literal pattern). -/
def containsSub (s pat : String) : Bool := containsSubL pat.toList s.toList

/-- Decimal digit characters. -/
def decChars : List Char := String.toList "0123456789"

/-- Lowercase hexadecimal digit characters, as Python hex() emits them. -/
def hexChars : List Char := String.toList "0123456789abcdef"

/-- One decimal digit as a character; the fallback is unreachable for
digits below ten. -/
def decDigitChar (d : Nat) : Char := decChars.getD d (Char.ofNat 42)

/-- One lowercase hexadecimal digit as a character. -/
def hexDigitChar (d : Nat) : Char := hexChars.getD d (Char.ofNat 42)

/-- Numeric value of a decimal digit character (0 for non-digits; used
only on digit characters). -/
def decDigitVal (c : Char) : Nat :=
  match c with
  | '0' => 0 | '1' => 1 | '2' => 2 | '3' => 3 | '4' => 4
  | '5' => 5 | '6' => 6 | '7' => 7 | '8' => 8 | '9' => 9
  | _ => 0

/-- Fuel-driven digit expansion in an arbitrary base (most significant
digit first), rendering each digit with dchar.  Fuel n + 1 is always
sufficient for the number n. -/
def digitsAux (dchar : Nat → Char) (base : Nat) : Nat → Nat → List Char
  | 0, _ => []
  | fuel + 1, n =>
    if n < base then [dchar n]
    else digitsAux dchar base fuel (n / base) ++ [dchar (n % base)]

/-- Decimal digits of a Nat, most significant first. -/
def decDigits (n : Nat) : List Char := digitsAux decDigitChar 10 (n + 1) n

/-- Lowercase hexadecimal digits of a Nat, most significant first. -/
def hexDigits (n : Nat) : List Char := digitsAux hexDigitChar 16 (n + 1) n

/-- Decimal rendering of a Nat. -/
def natStr (n : Nat) : String := (decDigits n).asString

/-- Python format specifier {:06}: decimal, zero-padded on the left to a
minimum width of six. -/
def pad6 (n : Nat) : String :=
  let d := natStr n
  if d.length < 6 then (List.replicate (6 - d.length) '0').asString ++ d else d

/-- Parse a list of decimal digit characters back into a Nat. -/
def parseDec (cs : List Char) : Nat := cs.foldl (fun acc c => 10 * acc + decDigitVal c) 0

/-- Python hex(n) for a nonnegative n: the prefix 0x followed by lowercase
hexadecimal digits. -/
def pyHex (n : Nat) : String := "0x" ++ (hexDigits n).asString

/-- The datatake field of the naming skeleton, processor.py line 128:
hex(frameNumber).replace(x, empty).upper().  Removing the letter x from
the 0x prefix leaves the leading zero in place. -/
def datatakeField (n : Nat) : String := upperStr (pyReplace (pyHex n) "x" "")

/-- Spec-side rendering for comparison (claim C5): the frame number as
uppercase hexadecimal digits with no prefix characters. -/
def specUpperHex (n : Nat) : String := upperStr ((hexDigits n).asString)

/-- The literal tail of the reference-layer pattern on processor.py
line 80. -/
def gammaTail : List Char := String.toList "_gamma0-rtc"

/-- Character class [VH] of the reference-layer pattern. -/
def vhUpper (c : Char) : Bool := c = 'V' || c = 'H'

/-- Does the regular expression [VH]\x7b2\x7d_gamma0-rtc match at the head
of the character list. -/
def patAt : List Char → Bool
  | c1 :: c2 :: rest => vhUpper c1 && vhUpper c2 && gammaTail.isPrefixOf rest
  | _ => false

/-- re.search of the reference-layer pattern over a character list. -/
def patSearchL : List Char → Bool
  | [] => false
  | c :: rest => patAt (c :: rest) || patSearchL rest

/-- re.search of the reference-layer pattern over a string
(processor.py line 84, applied to the basename of each dataset file). -/
def patSearch (s : String) : Bool := patSearchL s.toList

/-- Worker for patSubStr.  The Nat argument counts characters still to be
skipped because they belong to an already-replaced match (the pattern has
length 13: two class characters plus the 11-character literal tail). -/
def patSubL : Nat → List Char → List Char
  | _, [] => []
  | k + 1, _ :: rest => patSubL k rest
  | 0, c :: rest =>
    if patAt (c :: rest) then String.toList "datamask" ++ patSubL 12 rest
    else c :: patSubL 0 rest

/-- re.sub of the reference-layer pattern by the word datamask
(processor.py line 85, applied to the full path of the first matching
polarization file). -/
def patSubStr (s : String) : String := (patSubL 0 s.toList).asString

/-- Character class [hv] of the color-composite pattern
(processor.py line 244). -/
def hvLower (c : Char) : Bool := c = 'h' || c = 'v'

/-- re.sub of the pattern [hv]\x7b2\x7d by the word cc over a character
list. -/
def ccSubL : List Char → List Char
  | c1 :: c2 :: rest =>
    if hvLower c1 && hvLower c2 then 'c' :: 'c' :: ccSubL rest
    else c1 :: ccSubL (c2 :: rest)
  | cs => cs

/-- re.sub([hv]\x7b2\x7d, cc, s) of processor.py line 244. -/
def ccSubStr (s : String) : String := (ccSubL s.toList).asString

/-!  Data model.  -/

/-- The slice of a pyroSAR scene handle that nrb_processing reads:
scene path, sensor, acquisition mode, polarization list, start of the
absolute orbit number range, and frame number. -/
structure SceneId where
  scene : String
  sensor : String
  acqMode : String
  polarizations : List String
  orbitNumber : Nat
  frameNumber : Nat
  deriving DecidableEq

/-- Errors raised by nrb_processing, as structured values; errMsg renders
the exact message text of the source. -/
inductive Err
  | noDatasets (datadir : String)
  | indexError
  | noOverlap (tile : String) (scenes : List String)
  | keyError (key : String)
  | mismatch (files : List String)
  | fileNotFound (path : String)
  deriving DecidableEq

/-- The message text each error carries in the source. -/
def errMsg : Err → String
  | .noDatasets d =>
    "No pyroSAR datasets were found in the directory " ++ qs ++ d ++ qs
  | .indexError => "list index out of range"
  | .noOverlap tile scenes =>
    "None of the scenes overlap with the current tile " ++ tile ++ ": \n"
      ++ pyStrList scenes
  | .keyError k => pyRepr k
  | .mismatch files => "file mismatch:\n" ++ pyJoin "\n" files
  | .fileNotFound p => "External water body mask could not be found: " ++ p

/-- The polarization lookup table of processor.py lines 122-125, keyed by
the Python rendering of the polarization list.  The key strings are built
with qs and coincide character for character with the literal dictionary
keys of the source. -/
def polMap : List (String × String) :=
  [ ("[" ++ qs ++ "HH" ++ qs ++ "]", "SH"),
    ("[" ++ qs ++ "VV" ++ qs ++ "]", "SV"),
    ("[" ++ qs ++ "HH" ++ qs ++ ", " ++ qs ++ "HV" ++ qs ++ "]", "DH"),
    ("[" ++ qs ++ "VV" ++ qs ++ ", " ++ qs ++ "VH" ++ qs ++ "]", "DV") ]

/-- The dictionary lookup on str(ids[0].polarizations); none models the
KeyError that aborts nrb_processing on an unmapped combination. -/
def polClass (pols : List String) : Option String :=
  polMap.lookup (pyStrList pols)

/-- The fields of the meta dictionary of processor.py lines 120-130 that
feed the naming skeletons. -/
structure ProdMeta where
  mission : String
  mode : String
  polarization : String
  start : String
  orbitnumber : Nat
  datatake : String
  tile : String
  pid : String
  deriving DecidableEq

/-- skeleton_dir of processor.py line 132, formatted with the meta
fields; the orbit number is rendered with the 06 format specifier. -/
def skeletonDir (m : ProdMeta) : String :=
  m.mission ++ "_" ++ m.mode ++ "_NRB__1S" ++ m.polarization ++ "_" ++ m.start
    ++ "_" ++ pad6 m.orbitnumber ++ "_" ++ m.datatake ++ "_" ++ m.tile ++ "_" ++ m.pid

/-- skeleton_files of processor.py line 133, formatted with metaL (every
string field lowercased; the suffix is attached afterwards and keeps its
case). -/
def skeletonFiles (m : ProdMeta) (suffix : String) : String :=
  lowerStr m.mission ++ "-" ++ lowerStr m.mode ++ "-nrb-" ++ lowerStr m.start
    ++ "-" ++ pad6 m.orbitnumber ++ "-" ++ lowerStr m.datatake ++ "-"
    ++ lowerStr m.tile ++ "-" ++ suffix ++ ".tif"

/-- External collaborators of nrb_processing, abstracted as functions and
values.  Modelled from the spec where the implementing module is not
among the sources under inspection:
- identify: pyroSAR identify_many, one scene handle per input scene
  (the spec treats identification as a per-scene external interface);
- findDatasets: pyroSAR find_datasets, the directory-convention scan
  that lists the already-geocoded rasters of one scene;
- ov: the spatialist geometry test used on processor.py lines 100-111,
  true exactly when the valid-data vector boundary (given by its path)
  has a nonempty intersection with the tile bounding geometry;
- findKey: re.search over the alternation of the ITEM_MAP category keys
  (metadata/mapping.py is not among the sources), returning the matched
  category key of a dataset file name, if any;
- suffixOf: the suffix entry of ITEM_MAP for a category key;
- productStart, productStop: calc_product_start_stop of S1_NRB.ancillary
  (not among the sources), the product time stamps derived from the
  source scenes and the tile extent;
- productId: generate_unique_id of S1_NRB.ancillary (not among the
  sources), the content-derived hash over the UTC processing timestamp;
- measurePaths, gsPath: the finder scans of processor.py lines 231-232
  over the renamed product directory (spatialist finder is external);
- acqIdPath: the output path chosen inside create_acq_id_image of
  S1_NRB.ancillary (not among the sources). -/
structure World where
  identify : String → SceneId
  findDatasets : String → List String
  ov : String → Bool
  findKey : String → Option String
  suffixOf : String → String
  productStart : String
  productStop : String
  productId : String
  measurePaths : List String
  gsPath : String
  acqIdPath : String

/-- processor.py lines 70-75: identify the scenes and collect one dataset
listing per identified scene from datadir/scene_base/epsg. -/
def resolve (w : World) (datadir : String) (epsg : Nat) (scenes : List String) :
    List SceneId × List (List String) :=
  let ids := scenes.map w.identify
  (ids, ids.map (fun sid =>
    w.findDatasets (pjoin (pjoin datadir (splitextBase (basename sid.scene))) (natStr epsg))))

/-- The polarization files of one dataset listing: the files whose
basename matches the reference-layer pattern (processor.py line 84). -/
def polsOf (d : List String) : List String :=
  d.filter (fun x => patSearch (basename x))

/-- The valid-data raster path derived from a dataset listing: re.sub of
the pattern on the first polarization file (processor.py line 85).  The
default of headD is only reached when the listing has no polarization
file, in which case the loop raises IndexError before using it. -/
def dmRasOf (d : List String) : String := patSubStr ((polsOf d).headD "")

/-- The valid-data vector path: the raster path with .tif replaced by
.gpkg (processor.py line 86). -/
def dmVecOf (d : List String) : String := pyReplace (dmRasOf d) ".tif" ".gpkg"

/-- The while loop of processor.py lines 81-111: walk an index over the
datasets list; on an empty intersection delete the current entry from
both ids and datasets, otherwise record the valid-data raster path and
advance.  The cache-materialisation writes of lines 88-99 (raster and
vector forms of the valid-data mask, each guarded by an existence check)
only create files under datadir and do not influence the selection, so
they carry no events here.  pols[0] on an empty pols list is the
IndexError of claim C10. -/
def overlapLoop (ov : String → Bool) (ids : List SceneId)
    (datasets : List (List String)) (i : Nat) (snap : List String) :
    Except Err (List SceneId × List (List String) × List String) :=
  if h : i < datasets.length then
    let d := datasets.get ⟨i, h⟩
    match polsOf d with
    | [] => .error .indexError
    | _ :: _ =>
      if ov (dmVecOf d) then
        overlapLoop ov ids datasets (i + 1) (snap ++ [dmRasOf d])
      else
        overlapLoop ov (ids.eraseIdx i) (datasets.eraseIdx i) i snap
  else
    .ok (ids, datasets, snap)
termination_by datasets.length - i
decreasing_by
  · omega
  · have := List.length_eraseIdx (l := datasets) (i := i)
    simp only [h, if_true] at this
    omega

/-!  Event model of the assembly (processor.py lines 132-287).
The file system is the list of existing paths; every output-file
creation becomes an event; guarded creations consult the file system
first, exactly where the source checks os.path.isfile.  -/

/-- The kinds of output files the assembly creates. -/
inductive EKind
  | cog
  | logVrt
  | ccVrt
  | dataMask
  | acqId
  | sigmaLin
  | sigmaLog
  | xmlMeta
  | stacMeta
  deriving DecidableEq

/-- One observable step of the assembly: a file write or the directory
rename. -/
inductive Event
  | write (k : EKind) (path : String)
  | rename (src dst : String)
  deriving DecidableEq

/-- The file system as the list of existing paths. -/
abbrev FS := List String

/-- A creation guarded by an existence check: skip when the path already
exists, otherwise emit the write and add the path. -/
def writeIfAbsent (k : EKind) (p : String) (fs : FS) : List Event × FS :=
  if p ∈ fs then ([], fs) else ([Event.write k p], p :: fs)

/-- An unguarded creation: always emit the write. -/
def writeAlways (k : EKind) (p : String) (fs : FS) : List Event × FS :=
  ([Event.write k p], if p ∈ fs then fs else p :: fs)

/-- Run a per-element step over a list, threading the file system and
concatenating events in order. -/
def phaseFold (step : String → FS → List Event × FS) :
    List String → FS → List Event × FS
  | [], fs => ([], fs)
  | m :: rest, fs =>
    let r1 := step m fs
    let r2 := phaseFold step rest r1.2
    (r1.1 ++ r2.1, r2.2)

/-- One entry of the files sequence of processor.py lines 158-161: a bare
path when only one scene survived, a same-position group across scenes
otherwise.  The unsupported-type branch of line 204 cannot arise in this
typed embedding. -/
inductive FItem
  | single (s : String)
  | group (ss : List String)
  deriving DecidableEq

/-- Python zip(*datasets): transpose truncated to the shortest listing. -/
def zipStar (ls : List (List String)) : List (List String) :=
  let n := (ls.map List.length).foldr Nat.min ((ls.headD []).length)
  (List.range n).map (fun i => ls.filterMap (fun x => x[i]?))

/-- processor.py lines 158-161: group same-position files across scenes
when more than one scene survived, else take the single listing.  The
headD default is unreachable because the filter keeps ids and datasets
in lockstep and at least one scene survived. -/
def mkFilesItems (datasets : List (List String)) : List FItem :=
  if datasets.length > 1 then (zipStar datasets).map FItem.group
  else (datasets.headD []).map FItem.single

/-- processor.py lines 164-178: the category key of one files entry.
For a bare path, the key of the regex search, none meaning continue.
For a group, the set of keys across its members must have exactly one
element (a mismatch is the fatal enumerated error of line 175); a group
of files without category is skipped. -/
def classify (findKey : String → Option String) : FItem → Except Err (Option String)
  | .single s => .ok (findKey s)
  | .group ss =>
    let keys := ss.map findKey
    if keys.dedup.length ≠ 1 then .error (.mismatch ss)
    else if none ∈ keys then .ok none
    else .ok (keys.headD none)

/-- The output path of one COG raster, processor.py lines 184-190:
measurement for backscatter categories, annotation otherwise, file name
from the lowercased skeleton. -/
def cogOutname (m : ProdMeta) (suffixOf : String → String) (nrbdir key : String) : String :=
  pjoin (pjoin nrbdir (if containsSub key "_gamma0" then "measurement" else "annotation"))
    (skeletonFiles m (suffixOf key))

/-- One iteration of the COG loop, processor.py lines 164-220: classify,
skip the layover-shadow mask (created later as part of the data mask),
then write the cropped COG unless the output already exists. -/
def cogStep (findKey : String → Option String) (suffixOf : String → String)
    (m : ProdMeta) (nrbdir : String) (fs : FS) (item : FItem) :
    Except Err (List Event × FS) :=
  match classify findKey item with
  | .error e => .error e
  | .ok none => .ok ([], fs)
  | .ok (some key) =>
    if key = "layoverShadowMask" then .ok ([], fs)
    else .ok (writeIfAbsent .cog (cogOutname m suffixOf nrbdir key) fs)

/-- The COG loop over all files entries. -/
def cogPhase (findKey : String → Option String) (suffixOf : String → String)
    (m : ProdMeta) (nrbdir : String) :
    List FItem → FS → Except Err (List Event × FS)
  | [], fs => .ok ([], fs)
  | it :: rest, fs =>
    match cogStep findKey suffixOf m nrbdir fs it with
    | .error e => .error e
    | .ok r1 =>
      match cogPhase findKey suffixOf m nrbdir rest r1.2 with
      | .error e => .error e
      | .ok r2 => .ok (r1.1 ++ r2.1, r2.2)

/-- processor.py lines 236-241: one log-scaled gamma nought VRT per
measurement raster, guarded by an existence check. -/
def logStep (m : String) (fs : FS) : List Event × FS :=
  writeIfAbsent .logVrt (pyReplace m "lin.tif" "log.vrt") fs

/-- The color-composite path of processor.py line 244. -/
def ccPathOf (m : String) : String := pyReplace (ccSubStr m) ".tif" ".vrt"

/-- processor.py lines 243-246: for dual-polarization products with two
measurement rasters, create_rgb_vrt is invoked with no existence check
at the call site, so the composite is regenerated unconditionally. -/
def ccPhase (polC : String) (measure : List String) (fs : FS) : List Event × FS :=
  if (polC = "DH" ∨ polC = "DV") ∧ measure.length = 2 then
    writeAlways .ccVrt (ccPathOf (measure.headD "")) fs
  else ([], fs)

/-- processor.py lines 250-257: the water-body mask check, then the data
mask.  The creation itself is modelled from the spec: create_data_mask
of S1_NRB.ancillary is not among the sources and the spec describes the
data mask as written once (idempotent), hence the guarded write. -/
def dmPhase (wbm : Option String) (demType : String) (dmPath : String) (fs : FS) :
    Except Err (List Event × FS) :=
  match wbm with
  | none => .ok (writeIfAbsent .dataMask dmPath fs)
  | some w =>
    if demType ≠ "GETASSE30" ∧ w ∉ fs then .error (.fileNotFound w)
    else .ok (writeIfAbsent .dataMask dmPath fs)

/-- processor.py lines 261-263, modelled from the spec: the acquisition-id
image of create_acq_id_image (S1_NRB.ancillary, not among the sources)
is written once (idempotent) at its output path. -/
def acqPhase (acqIdPath : String) (fs : FS) : List Event × FS :=
  writeIfAbsent .acqId acqIdPath fs

/-- processor.py lines 267-279: linear and log sigma nought VRTs per
measurement raster, each guarded by an existence check. -/
def sigmaStep (m : String) (fs : FS) : List Event × FS :=
  let r1 := writeIfAbsent .sigmaLin (pyReplace m "g-lin.tif" "s-lin.vrt") fs
  let r2 := writeIfAbsent .sigmaLog (pyReplace m "g-lin.tif" "s-log.vrt") r1.2
  (r1.1 ++ r2.1, r2.2)

/-- processor.py lines 236-279, the block that runs after the rename:
log VRTs, color composite, water-body check plus data mask,
acquisition-id image, and sigma nought VRTs, in source order. -/
def postRename (w : World) (demType : String) (polC : String)
    (wbm : Option String) (fs : FS) : Except Err (List Event × FS) :=
  let rL := phaseFold logStep w.measurePaths fs
  let rCC := ccPhase polC w.measurePaths rL.2
  match dmPhase wbm demType (pyReplace w.gsPath "-gs.tif" "-dm.tif") rCC.2 with
  | .error e => .error e
  | .ok rDM =>
    let rA := acqPhase w.acqIdPath rDM.2
    let rS := phaseFold sigmaStep w.measurePaths rA.2
    .ok (rL.1 ++ rCC.1 ++ rDM.1 ++ rA.1 ++ rS.1, rS.2)

/-- The assembly of processor.py lines 132-287, given the surviving
dataset listings and the meta fields: the guarded COG loop populates the
placeholder-named directory, the directory is renamed to the unique
product id, and the derived rasters, masks and metadata are then written
into the renamed directory (their paths come from the directory scans
held by the World).  The rename is kept as an event; the path set is not
remapped because every later guard consults only the scanned paths. -/
def assembly (w : World) (demType : String) (m : ProdMeta) (outdir : String)
    (wbm : Option String) (ds2 : List (List String)) (fs : FS) :
    Except Err (List Event × FS) :=
  let nrbdir := pjoin outdir (skeletonDir m)
  match cogPhase w.findKey w.suffixOf m nrbdir (mkFilesItems ds2) fs with
  | .error e => .error e
  | .ok rC =>
    let nrbdirNew := pyReplace nrbdir "ABCD" w.productId
    match postRename w demType m.polarization wbm rC.2 with
    | .error e => .error e
    | .ok rP =>
      .ok (rC.1 ++ Event.rename nrbdir nrbdirNew ::
            (rP.1 ++ [Event.write .xmlMeta nrbdirNew, Event.write .stacMeta nrbdirNew]),
           rP.2)

/-- nrb_processing, processor.py lines 26-287: resolve the scenes, guard
against an empty datasets list, filter by tile overlap, guard against
zero survivors, derive the polarization class and the meta fields, and
run the assembly.  The result is the ordered list of events of a
successful run, or the structured error. -/
def nrbProcessing (w : World) (demType : String) (scenes : List String)
    (datadir outdir tile : String) (epsg : Nat) (wbm : Option String) (fs : FS) :
    Except Err (List Event × FS) :=
  let ids := (resolve w datadir epsg scenes).1
  let datasets := (resolve w datadir epsg scenes).2
  if datasets.length = 0 then .error (.noDatasets datadir)
  else
    match overlapLoop w.ov ids datasets 0 [] with
    | .error e => .error e
    | .ok (ids2, ds2, _) =>
      match ids2 with
      | [] => .error (.noOverlap tile scenes)
      | first :: _ =>
        match polClass first.polarizations with
        | none => .error (.keyError (pyStrList first.polarizations))
        | some polC =>
          let m : ProdMeta :=
            { mission := first.sensor, mode := first.acqMode, polarization := polC,
              start := w.productStart, orbitnumber := first.orbitNumber,
              datatake := datatakeField first.frameNumber, tile := tile, pid := "ABCD" }
          assembly w demType m outdir wbm ds2 fs

/-- Is an event a write of a raster file of the product (claim C1 counts
measurement, annotation, data mask, acquisition-id and derived rasters;
the XML and STAC metadata are not rasters). -/
def rasterWrite : Event → Bool
  | .write .xmlMeta _ => false
  | .write .stacMeta _ => false
  | .write _ _ => true
  | .rename _ _ => false

/-- Does some raster write occur after a rename in the trace. -/
def rasterWritesAfterRename : List Event → Bool
  | [] => false
  | Event.rename _ _ :: rest => rest.any rasterWrite || rasterWritesAfterRename rest
  | _ :: rest => rasterWritesAfterRename rest

/-- The (scene, dataset) pairs the overlap filter retains: those whose
valid-data vector boundary intersects the tile. -/
def keepPairs (ov : String → Bool) (ids : List SceneId) (datasets : List (List String)) :
    List (SceneId × List String) :=
  (ids.zip datasets).filter (fun pr => ov (dmVecOf pr.2))

/-- The four polarization tokens a Sentinel-1 scene can carry. -/
def validPols : List String := ["HH", "HV", "VV", "VH"]

/-!  Concrete sample inputs used by counterexamples and witnesses.  -/

/-- A sample single-polarization scene handle. -/
def cxScene : SceneId :=
  { scene := "S1A_test.zip", sensor := "S1A", acqMode := "IW",
    polarizations := ["VV"], orbitNumber := 12345, frameNumber := 26 }

/-- A second sample scene handle, used to exercise the overlap filter on
two scenes. -/
def cxScene2 : SceneId :=
  { scene := "S1A_other.zip", sensor := "S1A", acqMode := "IW",
    polarizations := ["VV"], orbitNumber := 12346, frameNumber := 27 }

/-- A sample world in which every scene overlaps the tile and the
category search finds nothing (so the COG loop writes nothing). -/
def cxW : World :=
  { identify := fun _ => cxScene,
    findDatasets := fun _ => ["g/VV_gamma0-rtc.tif"],
    ov := fun _ => true,
    findKey := fun _ => none,
    suffixOf := fun _ => "sfx",
    productStart := "20200101T000000",
    productStop := "20200101T000030",
    productId := "0A1B2C",
    measurePaths := ["m/vv-g-lin.tif"],
    gsPath := "m/q-gs.tif",
    acqIdPath := "m/q-id.tif" }

/-- A sample single-polarization meta record, matching cxScene. -/
def cxMeta : ProdMeta :=
  { mission := "S1A", mode := "IW", polarization := "SV", start := "20200101T000000",
    orbitnumber := 12345, datatake := "01A", tile := "T01", pid := "ABCD" }

/-- A sample dual-polarization meta record. -/
def ccMeta : ProdMeta :=
  { mission := "S1A", mode := "IW", polarization := "DV", start := "20200101T000000",
    orbitnumber := 12345, datatake := "01A", tile := "T01", pid := "ABCD" }

/-- A sample world with two measurement rasters, for the dual-polarization
color-composite path. -/
def ccW : World :=
  { cxW with measurePaths := ["m/vv-g-lin.tif", "m/vh-g-lin.tif"] }

/-- A sample world in which no scene overlaps the tile. -/
def nvW : World :=
  { cxW with ov := fun _ => false }

/-- The event trace of the sample dual-polarization assembly run started
with the vv log VRT already present. -/
def c3wTrace : List Event :=
  [Event.rename "out/S1A_IW_NRB__1SDV_20200101T000000_012345_01A_T01_ABCD"
      "out/S1A_IW_NRB__1SDV_20200101T000000_012345_01A_T01_0A1B2C",
   Event.write .logVrt "m/vh-g-log.vrt",
   Event.write .ccVrt "m/cc-g-lin.vrt",
   Event.write .dataMask "m/q-dm.tif",
   Event.write .acqId "m/q-id.tif",
   Event.write .sigmaLin "m/vv-s-lin.vrt",
   Event.write .sigmaLog "m/vv-s-log.vrt",
   Event.write .sigmaLin "m/vh-s-lin.vrt",
   Event.write .sigmaLog "m/vh-s-log.vrt",
   Event.write .xmlMeta "out/S1A_IW_NRB__1SDV_20200101T000000_012345_01A_T01_0A1B2C",
   Event.write .stacMeta "out/S1A_IW_NRB__1SDV_20200101T000000_012345_01A_T01_0A1B2C"]

/-- The path set after that run. -/
def c3wFs : FS :=
  ["m/vh-s-log.vrt", "m/vh-s-lin.vrt", "m/vv-s-log.vrt", "m/vv-s-lin.vrt",
   "m/q-id.tif", "m/q-dm.tif", "m/cc-g-lin.vrt", "m/vh-g-log.vrt", "m/vv-g-log.vrt"]

/-!  Helper lemmas about list indexing used by the loop proofs.  -/

theorem get_append_len {α : Type} (l1 : List α) (x : α) (l2 : List α)
    (h : l1.length < (l1 ++ x :: l2).length) :
    (l1 ++ x :: l2).get ⟨l1.length, h⟩ = x := by
  induction l1 with
  | nil => rfl
  | cons a as ih => exact ih (by simp)

theorem eraseIdx_append_len {α : Type} (l1 : List α) (x : α) (l2 : List α) :
    (l1 ++ x :: l2).eraseIdx l1.length = l1 ++ l2 := by
  induction l1 with
  | nil => rfl
  | cons a as ih => simpa [List.eraseIdx_cons_succ] using ih

theorem eraseIdx_drop {α : Type} (i : Nat) :
    ∀ l : List α, (l.eraseIdx i).drop i = l.drop (i + 1) := by
  induction i with
  | zero => intro l; cases l <;> rfl
  | succ i ih =>
    intro l
    cases l with
    | nil => rfl
    | cons a as => simpa [List.eraseIdx_cons_succ, List.drop_succ_cons] using ih as

/-!  The overlap filter: closed form and error behaviour.  -/

/-- The while loop of lines 81-111 processed from an arbitrary split
point: the entries before the index are already decided, the loop turns
the remaining suffix into its retained sublist, appended in order. -/
theorem overlapLoop_go (ov : String → Bool) (rD : List (List String)) :
    ∀ (rI pI : List SceneId) (pD : List (List String)) (snap : List String),
      pI.length = pD.length → rI.length = rD.length →
      (∀ d ∈ rD, polsOf d ≠ []) →
      overlapLoop ov (pI ++ rI) (pD ++ rD) pD.length snap =
        .ok (pI ++ (keepPairs ov rI rD).map Prod.fst,
             pD ++ (keepPairs ov rI rD).map Prod.snd,
             snap ++ (keepPairs ov rI rD).map (fun pr => dmRasOf pr.2)) := by
  induction rD with
  | nil =>
    intro rI pI pD snap hpl hrl hp
    have hrI : rI = [] := List.length_eq_zero.mp (by simpa using hrl)
    subst hrI
    rw [overlapLoop, dif_neg (by simp)]
    simp [keepPairs]
  | cons d ds ih =>
    intro rI pI pD snap hpl hrl hp
    cases rI with
    | nil => simp at hrl
    | cons s ss =>
      have hlt : pD.length < (pD ++ d :: ds).length := by simp
      rw [overlapLoop, dif_pos hlt]
      have hget : (pD ++ d :: ds).get ⟨pD.length, hlt⟩ = d := get_append_len pD d ds hlt
      rw [hget]
      have hd : polsOf d ≠ [] := hp d (by simp)
      rcases hpols : polsOf d with _ | ⟨p, ps⟩
      · exact absurd hpols hd
      · simp only [hpols]
        by_cases hov : ov (dmVecOf d) = true
        · rw [if_pos hov]
          have h1 : pI ++ s :: ss = (pI ++ [s]) ++ ss := by simp
          have h2 : pD ++ d :: ds = (pD ++ [d]) ++ ds := by simp
          have h3 : pD.length + 1 = (pD ++ [d]).length := by simp
          rw [h1, h2, h3,
            ih ss (pI ++ [s]) (pD ++ [d]) (snap ++ [dmRasOf d]) (by simp [hpl])
              (by simpa using hrl) (fun x hx => hp x (by simp [hx]))]
          simp [keepPairs, hov, List.append_assoc]
        · rw [if_neg hov]
          have hov2 : ov (dmVecOf d) = false := by
            cases hx : ov (dmVecOf d)
            · rfl
            · exact absurd hx hov
          have e1 : (pI ++ s :: ss).eraseIdx pD.length = pI ++ ss := by
            rw [← hpl]; exact eraseIdx_append_len pI s ss
          have e2 : (pD ++ d :: ds).eraseIdx pD.length = pD ++ ds :=
            eraseIdx_append_len pD d ds
          rw [e1, e2,
            ih ss pI pD snap hpl (by simpa using hrl) (fun x hx => hp x (by simp [hx]))]
          simp [keepPairs, hov2]

/-- The overlap filter as a single pass: when every surviving listing has
a reference layer, the loop returns exactly the retained pairs, in
order, in lockstep, together with the valid-data raster paths of the
retained scenes. -/
theorem overlapLoop_spec (ov : String → Bool) (ids : List SceneId)
    (datasets : List (List String)) (hlen : ids.length = datasets.length)
    (hp : ∀ d ∈ datasets, polsOf d ≠ []) :
    overlapLoop ov ids datasets 0 [] =
      .ok ((keepPairs ov ids datasets).map Prod.fst,
           (keepPairs ov ids datasets).map Prod.snd,
           (keepPairs ov ids datasets).map (fun pr => dmRasOf pr.2)) := by
  have h := overlapLoop_go ov datasets ids [] [] [] rfl hlen hp
  simpa using h

/-- If some still-unprocessed listing has no reference-layer file, the
loop terminates with the bare IndexError of the access pols[0]. -/
theorem overlapLoop_err_aux (ov : String → Bool) :
    ∀ (n : Nat) (ids : List SceneId) (datasets : List (List String)) (i : Nat)
      (snap : List String), datasets.length - i ≤ n →
      (∃ d ∈ datasets.drop i, polsOf d = []) →
      overlapLoop ov ids datasets i snap = .error .indexError := by
  intro n
  induction n with
  | zero =>
    intro ids datasets i snap hn hbad
    rw [List.drop_eq_nil_of_le (by omega)] at hbad
    simp at hbad
  | succ n ih =>
    intro ids datasets i snap hn hbad
    by_cases h : i < datasets.length
    · rw [overlapLoop, dif_pos h]
      have hdrop : datasets.drop i = datasets.get ⟨i, h⟩ :: datasets.drop (i + 1) :=
        List.drop_eq_getElem_cons h
      rcases hpols : polsOf (datasets.get ⟨i, h⟩) with _ | ⟨p, ps⟩
      · simp only [hpols]
      · simp only [hpols]
        obtain ⟨bad, hmem, hbadpols⟩ := hbad
        rw [hdrop] at hmem
        have hbad2 : bad ∈ datasets.drop (i + 1) := by
          rcases List.mem_cons.mp hmem with rfl | hh
          · rw [hpols] at hbadpols; cases hbadpols
          · exact hh
        by_cases hov : ov (dmVecOf (datasets.get ⟨i, h⟩)) = true
        · rw [if_pos hov]
          exact ih ids datasets (i + 1) _ (by omega) ⟨bad, hbad2, hbadpols⟩
        · rw [if_neg hov]
          apply ih (ids.eraseIdx i) (datasets.eraseIdx i) i snap
          · have hlen := List.length_eraseIdx datasets i
            rw [if_pos h] at hlen
            omega
          · refine ⟨bad, ?_, hbadpols⟩
            rw [eraseIdx_drop]
            exact hbad2
    · rw [List.drop_eq_nil_of_le (by omega)] at hbad
      simp at hbad

/-- The loop has a single raising site: every error it returns is the
IndexError of pols[0]. -/
theorem overlapLoop_error_shape (ov : String → Bool) :
    ∀ (n : Nat) (ids : List SceneId) (datasets : List (List String)) (i : Nat)
      (snap : List String) (e : Err), datasets.length - i ≤ n →
      overlapLoop ov ids datasets i snap = .error e → e = .indexError := by
  intro n
  induction n with
  | zero =>
    intro ids datasets i snap e hn heq
    rw [overlapLoop, dif_neg (by omega)] at heq
    cases heq
  | succ n ih =>
    intro ids datasets i snap e hn heq
    by_cases h : i < datasets.length
    · rw [overlapLoop, dif_pos h] at heq
      rcases hpols : polsOf (datasets.get ⟨i, h⟩) with _ | ⟨p, ps⟩
      · simp only [hpols] at heq
        exact (Except.error.inj heq).symm
      · simp only [hpols] at heq
        by_cases hov : ov (dmVecOf (datasets.get ⟨i, h⟩)) = true
        · rw [if_pos hov] at heq
          exact ih ids datasets (i + 1) _ e (by omega) heq
        · rw [if_neg hov] at heq
          have hlen := List.length_eraseIdx datasets i
          rw [if_pos h] at hlen
          exact ih (ids.eraseIdx i) (datasets.eraseIdx i) i snap e (by omega) heq
    · rw [overlapLoop, dif_neg h] at heq
      cases heq

/-- C2: the overlap filter removes a scene from both the ids and the
datasets list exactly when its cached valid-data vector boundary has an
empty intersection with the tile geometry (ov false); the retained
pairs keep their original relative order and matching indices, and the
valid-data raster path of each retained scene, and only of retained
scenes, is appended in order to the overlap list.  All three results
are the same ordered filter of the zipped input. -/
theorem overlap_filter_lockstep (ov : String → Bool) (ids : List SceneId)
    (datasets : List (List String)) (hlen : ids.length = datasets.length)
    (hp : ∀ d ∈ datasets, polsOf d ≠ []) :
    overlapLoop ov ids datasets 0 [] =
      .ok ((keepPairs ov ids datasets).map Prod.fst,
           (keepPairs ov ids datasets).map Prod.snd,
           (keepPairs ov ids datasets).map (fun pr => dmRasOf pr.2)) :=
  overlapLoop_spec ov ids datasets hlen hp

/-- Witness for C2 at a concrete two-scene input: the first scene
overlaps and is retained, the second does not and is removed from both
lists, and the overlap list holds exactly the retained valid-data
raster. -/
theorem overlap_filter_lockstep_witness :
    ([cxScene, cxScene2].length =
        [["x/VV_gamma0-rtc.tif"], ["y/VH_gamma0-rtc.tif"]].length) ∧
    (∀ d ∈ [["x/VV_gamma0-rtc.tif"], ["y/VH_gamma0-rtc.tif"]], polsOf d ≠ []) ∧
    overlapLoop (fun p => p == "x/datamask.gpkg") [cxScene, cxScene2]
        [["x/VV_gamma0-rtc.tif"], ["y/VH_gamma0-rtc.tif"]] 0 [] =
      .ok ((keepPairs (fun p => p == "x/datamask.gpkg") [cxScene, cxScene2]
              [["x/VV_gamma0-rtc.tif"], ["y/VH_gamma0-rtc.tif"]]).map Prod.fst,
           (keepPairs (fun p => p == "x/datamask.gpkg") [cxScene, cxScene2]
              [["x/VV_gamma0-rtc.tif"], ["y/VH_gamma0-rtc.tif"]]).map Prod.snd,
           (keepPairs (fun p => p == "x/datamask.gpkg") [cxScene, cxScene2]
              [["x/VV_gamma0-rtc.tif"], ["y/VH_gamma0-rtc.tif"]]).map
              (fun pr => dmRasOf pr.2)) :=
  ⟨by decide, by decide,
    overlap_filter_lockstep (fun p => p == "x/datamask.gpkg") [cxScene, cxScene2]
      [["x/VV_gamma0-rtc.tif"], ["y/VH_gamma0-rtc.tif"]] (by decide) (by decide)⟩

/-- C10: the overlap filter requires, as an unchecked precondition, a
reference-layer file per listing; a scene whose listing has no basename
matching the pattern makes the loop fail with the bare IndexError of
pols[0] instead of a descriptive error. -/
theorem overlap_filter_indexerror (ov : String → Bool) (ids : List SceneId)
    (datasets : List (List String))
    (h : ∃ d ∈ datasets, polsOf d = []) :
    overlapLoop ov ids datasets 0 [] = .error .indexError ∧
    errMsg .indexError = "list index out of range" :=
  ⟨overlapLoop_err_aux ov datasets.length ids datasets 0 [] (by omega)
      (by simpa using h), rfl⟩

/-- Witness for C10: a listing whose only file does not match the
reference-layer pattern crashes the loop with IndexError. -/
theorem overlap_filter_indexerror_witness :
    (∃ d ∈ [["g/VV_noise.tif"]], polsOf d = []) ∧
    overlapLoop (fun _ => true) [cxScene] [["g/VV_noise.tif"]] 0 [] =
      .error .indexError :=
  ⟨⟨["g/VV_noise.tif"], by decide, by decide⟩,
    (overlap_filter_indexerror (fun _ => true) [cxScene] [["g/VV_noise.tif"]]
      ⟨["g/VV_noise.tif"], by decide, by decide⟩).1⟩

/-!  Phase lemmas: how each assembly phase grows the path set, which
events it emits, and that guarded phases never write an existing path.  -/

theorem writeIfAbsent_subset (k : EKind) (p : String) (fs : FS) :
    fs ⊆ (writeIfAbsent k p fs).2 := by
  unfold writeIfAbsent
  split
  · exact fun a ha => ha
  · exact fun a ha => List.mem_cons_of_mem _ ha

theorem writeIfAbsent_guard (k : EKind) (p : String) (fs : FS) (k2 : EKind)
    (q : String) (hq : q ∈ fs) : Event.write k2 q ∉ (writeIfAbsent k p fs).1 := by
  unfold writeIfAbsent
  split
  · simp
  · rename_i hnot
    intro hmem
    have he := List.mem_singleton.mp hmem
    injection he with h1 h2
    subst h2
    exact hnot hq

theorem writeIfAbsent_kind (k : EKind) (p : String) (fs : FS) (e : Event)
    (h : e ∈ (writeIfAbsent k p fs).1) : e = Event.write k p := by
  unfold writeIfAbsent at h
  split at h
  · cases h
  · exact List.mem_singleton.mp h

theorem writeAlways_subset (k : EKind) (p : String) (fs : FS) :
    fs ⊆ (writeAlways k p fs).2 := by
  unfold writeAlways
  dsimp only
  split
  · exact fun a ha => ha
  · exact fun a ha => List.mem_cons_of_mem _ ha

theorem writeAlways_kind (k : EKind) (p : String) (fs : FS) (e : Event)
    (h : e ∈ (writeAlways k p fs).1) : e = Event.write k p :=
  List.mem_singleton.mp h

theorem phaseFold_subset (step : String → FS → List Event × FS)
    (hs : ∀ m fs, fs ⊆ (step m fs).2) :
    ∀ (ms : List String) (fs : FS), fs ⊆ (phaseFold step ms fs).2 := by
  intro ms
  induction ms with
  | nil => intro fs a ha; exact ha
  | cons m rest ih =>
    intro fs a ha
    exact ih ((step m fs).2) (hs m fs ha)

theorem phaseFold_guard (step : String → FS → List Event × FS)
    (hs : ∀ m fs, fs ⊆ (step m fs).2)
    (hg : ∀ m fs k q, q ∈ fs → Event.write k q ∉ (step m fs).1) :
    ∀ (ms : List String) (fs : FS) (k : EKind) (q : String), q ∈ fs →
      Event.write k q ∉ (phaseFold step ms fs).1 := by
  intro ms
  induction ms with
  | nil => intro fs k q hq hmem; cases hmem
  | cons m rest ih =>
    intro fs k q hq hmem
    simp only [phaseFold] at hmem
    rcases List.mem_append.mp hmem with h | h
    · exact hg m fs k q hq h
    · exact ih ((step m fs).2) k q (hs m fs hq) h

theorem phaseFold_kind (step : String → FS → List Event × FS) (P : Event → Prop)
    (hk : ∀ m fs e, e ∈ (step m fs).1 → P e) :
    ∀ (ms : List String) (fs : FS) (e : Event), e ∈ (phaseFold step ms fs).1 → P e := by
  intro ms
  induction ms with
  | nil => intro fs e hmem; cases hmem
  | cons m rest ih =>
    intro fs e hmem
    simp only [phaseFold] at hmem
    rcases List.mem_append.mp hmem with h | h
    · exact hk m fs e h
    · exact ih ((step m fs).2) e h

theorem logStep_subset (m : String) (fs : FS) : fs ⊆ (logStep m fs).2 :=
  writeIfAbsent_subset _ _ _

theorem logStep_guard (m : String) (fs : FS) (k : EKind) (q : String)
    (hq : q ∈ fs) : Event.write k q ∉ (logStep m fs).1 :=
  writeIfAbsent_guard _ _ _ _ _ hq

theorem logStep_kind (m : String) (fs : FS) (e : Event) (h : e ∈ (logStep m fs).1) :
    ∃ p, e = Event.write .logVrt p :=
  ⟨_, writeIfAbsent_kind _ _ _ _ h⟩

theorem sigmaStep_subset (m : String) (fs : FS) : fs ⊆ (sigmaStep m fs).2 :=
  fun _ ha => writeIfAbsent_subset _ _ _ (writeIfAbsent_subset _ _ _ ha)

theorem sigmaStep_guard (m : String) (fs : FS) (k : EKind) (q : String)
    (hq : q ∈ fs) : Event.write k q ∉ (sigmaStep m fs).1 := by
  intro hmem
  rcases List.mem_append.mp hmem with h | h
  · exact writeIfAbsent_guard _ _ _ _ _ hq h
  · exact writeIfAbsent_guard _ _ _ _ _ (writeIfAbsent_subset _ _ _ hq) h

theorem sigmaStep_kind (m : String) (fs : FS) (e : Event)
    (h : e ∈ (sigmaStep m fs).1) :
    (∃ p, e = Event.write .sigmaLin p) ∨ (∃ p, e = Event.write .sigmaLog p) := by
  rcases List.mem_append.mp h with h | h
  · exact Or.inl ⟨_, writeIfAbsent_kind _ _ _ _ h⟩
  · exact Or.inr ⟨_, writeIfAbsent_kind _ _ _ _ h⟩

theorem ccPhase_subset (polC : String) (measure : List String) (fs : FS) :
    fs ⊆ (ccPhase polC measure fs).2 := by
  unfold ccPhase
  split
  · exact writeAlways_subset _ _ _
  · exact fun a ha => ha

theorem ccPhase_kind (polC : String) (measure : List String) (fs : FS) (e : Event)
    (h : e ∈ (ccPhase polC measure fs).1) :
    e = Event.write .ccVrt (ccPathOf (measure.headD "")) := by
  unfold ccPhase at h
  split at h
  · exact writeAlways_kind _ _ _ _ h
  · cases h

theorem ccPhase_fires (polC : String) (measure : List String) (fs : FS)
    (h1 : polC = "DH" ∨ polC = "DV") (h2 : measure.length = 2) :
    Event.write .ccVrt (ccPathOf (measure.headD "")) ∈ (ccPhase polC measure fs).1 := by
  unfold ccPhase
  rw [if_pos ⟨h1, h2⟩]
  exact List.mem_singleton.mpr rfl

theorem dmPhase_ok_subset (wbm : Option String) (demType dmPath : String) (fs : FS)
    (r : List Event × FS) (h : dmPhase wbm demType dmPath fs = .ok r) : fs ⊆ r.2 := by
  cases wbm with
  | none =>
    simp only [dmPhase] at h
    injection h with h
    subst h
    exact writeIfAbsent_subset _ _ _
  | some w =>
    simp only [dmPhase] at h
    split at h
    · cases h
    · injection h with h
      subst h
      exact writeIfAbsent_subset _ _ _

theorem dmPhase_ok_kind (wbm : Option String) (demType dmPath : String) (fs : FS)
    (r : List Event × FS) (h : dmPhase wbm demType dmPath fs = .ok r) (e : Event)
    (he : e ∈ r.1) : e = Event.write .dataMask dmPath := by
  cases wbm with
  | none =>
    simp only [dmPhase] at h
    injection h with h
    subst h
    exact writeIfAbsent_kind _ _ _ _ he
  | some w =>
    simp only [dmPhase] at h
    split at h
    · cases h
    · injection h with h
      subst h
      exact writeIfAbsent_kind _ _ _ _ he

theorem dmPhase_ok_guard (wbm : Option String) (demType dmPath : String) (fs : FS)
    (r : List Event × FS) (h : dmPhase wbm demType dmPath fs = .ok r) (k : EKind)
    (q : String) (hq : q ∈ fs) : Event.write k q ∉ r.1 := by
  cases wbm with
  | none =>
    simp only [dmPhase] at h
    injection h with h
    subst h
    exact writeIfAbsent_guard _ _ _ _ _ hq
  | some w =>
    simp only [dmPhase] at h
    split at h
    · cases h
    · injection h with h
      subst h
      exact writeIfAbsent_guard _ _ _ _ _ hq

theorem dmPhase_error_shape (wbm : Option String) (demType dmPath : String)
    (fs : FS) (e : Err) (h : dmPhase wbm demType dmPath fs = .error e) :
    ∃ p, e = .fileNotFound p := by
  cases wbm with
  | none =>
    simp only [dmPhase] at h
    cases h
  | some w =>
    simp only [dmPhase] at h
    split at h
    · exact ⟨w, (Except.error.inj h).symm⟩
    · cases h

theorem classify_error_shape (fk : String → Option String) (it : FItem) (e : Err)
    (h : classify fk it = .error e) : ∃ fls, e = .mismatch fls := by
  cases it with
  | single s => cases h
  | group ss =>
    simp only [classify] at h
    split at h
    · exact ⟨ss, (Except.error.inj h).symm⟩
    · split at h <;> cases h

theorem cogStep_subset (fk : String → Option String) (sfx : String → String)
    (m : ProdMeta) (nd : String) (fs : FS) (it : FItem) (r : List Event × FS)
    (h : cogStep fk sfx m nd fs it = .ok r) : fs ⊆ r.2 := by
  cases hcl : classify fk it with
  | error e =>
    simp only [cogStep, hcl] at h
    cases h
  | ok okey =>
    cases okey with
    | none =>
      simp only [cogStep, hcl] at h
      injection h with h
      subst h
      exact fun a ha => ha
    | some key =>
      simp only [cogStep, hcl] at h
      split at h
      · injection h with h
        subst h
        exact fun a ha => ha
      · injection h with h
        subst h
        exact writeIfAbsent_subset _ _ _

theorem cogStep_guard (fk : String → Option String) (sfx : String → String)
    (m : ProdMeta) (nd : String) (fs : FS) (it : FItem) (r : List Event × FS)
    (h : cogStep fk sfx m nd fs it = .ok r) (k : EKind) (q : String)
    (hq : q ∈ fs) : Event.write k q ∉ r.1 := by
  cases hcl : classify fk it with
  | error e =>
    simp only [cogStep, hcl] at h
    cases h
  | ok okey =>
    cases okey with
    | none =>
      simp only [cogStep, hcl] at h
      injection h with h
      subst h
      simp
    | some key =>
      simp only [cogStep, hcl] at h
      split at h
      · injection h with h
        subst h
        simp
      · injection h with h
        subst h
        exact writeIfAbsent_guard _ _ _ _ _ hq

theorem cogStep_kind (fk : String → Option String) (sfx : String → String)
    (m : ProdMeta) (nd : String) (fs : FS) (it : FItem) (r : List Event × FS)
    (h : cogStep fk sfx m nd fs it = .ok r) (e : Event) (he : e ∈ r.1) :
    ∃ p, e = Event.write .cog p := by
  cases hcl : classify fk it with
  | error e2 =>
    simp only [cogStep, hcl] at h
    cases h
  | ok okey =>
    cases okey with
    | none =>
      simp only [cogStep, hcl] at h
      injection h with h
      subst h
      cases he
    | some key =>
      simp only [cogStep, hcl] at h
      split at h
      · injection h with h
        subst h
        cases he
      · injection h with h
        subst h
        exact ⟨_, writeIfAbsent_kind _ _ _ _ he⟩

theorem cogStep_error_shape (fk : String → Option String) (sfx : String → String)
    (m : ProdMeta) (nd : String) (fs : FS) (it : FItem) (e : Err)
    (h : cogStep fk sfx m nd fs it = .error e) : ∃ fls, e = .mismatch fls := by
  cases hcl : classify fk it with
  | error e2 =>
    simp only [cogStep, hcl] at h
    obtain rfl := Except.error.inj h
    exact classify_error_shape fk it _ hcl
  | ok okey =>
    cases okey with
    | none =>
      simp only [cogStep, hcl] at h
      cases h
    | some key =>
      simp only [cogStep, hcl] at h
      split at h <;> cases h

theorem cogPhase_subset (fk : String → Option String) (sfx : String → String)
    (m : ProdMeta) (nd : String) :
    ∀ (items : List FItem) (fs : FS) (r : List Event × FS),
      cogPhase fk sfx m nd items fs = .ok r → fs ⊆ r.2 := by
  intro items
  induction items with
  | nil =>
    intro fs r h
    injection h with h
    subst h
    exact fun a ha => ha
  | cons it rest ih =>
    intro fs r h
    simp only [cogPhase] at h
    cases h1 : cogStep fk sfx m nd fs it with
    | error e =>
      simp only [h1] at h
      cases h
    | ok r1 =>
      simp only [h1] at h
      cases h2 : cogPhase fk sfx m nd rest r1.2 with
      | error e =>
        simp only [h2] at h
        cases h
      | ok r2 =>
        simp only [h2] at h
        injection h with h
        subst h
        exact fun a ha => ih r1.2 r2 h2 (cogStep_subset fk sfx m nd fs it r1 h1 ha)

theorem cogPhase_guard (fk : String → Option String) (sfx : String → String)
    (m : ProdMeta) (nd : String) :
    ∀ (items : List FItem) (fs : FS) (r : List Event × FS),
      cogPhase fk sfx m nd items fs = .ok r → ∀ (k : EKind) (q : String),
      q ∈ fs → Event.write k q ∉ r.1 := by
  intro items
  induction items with
  | nil =>
    intro fs r h k q hq
    injection h with h
    subst h
    simp
  | cons it rest ih =>
    intro fs r h k q hq
    simp only [cogPhase] at h
    cases h1 : cogStep fk sfx m nd fs it with
    | error e =>
      simp only [h1] at h
      cases h
    | ok r1 =>
      simp only [h1] at h
      cases h2 : cogPhase fk sfx m nd rest r1.2 with
      | error e =>
        simp only [h2] at h
        cases h
      | ok r2 =>
        simp only [h2] at h
        injection h with h
        subst h
        intro hmem
        rcases List.mem_append.mp hmem with hm | hm
        · exact cogStep_guard fk sfx m nd fs it r1 h1 k q hq hm
        · exact ih r1.2 r2 h2 k q (cogStep_subset fk sfx m nd fs it r1 h1 hq) hm

theorem cogPhase_kind (fk : String → Option String) (sfx : String → String)
    (m : ProdMeta) (nd : String) :
    ∀ (items : List FItem) (fs : FS) (r : List Event × FS),
      cogPhase fk sfx m nd items fs = .ok r → ∀ e ∈ r.1,
      ∃ p, e = Event.write .cog p := by
  intro items
  induction items with
  | nil =>
    intro fs r h e he
    injection h with h
    subst h
    cases he
  | cons it rest ih =>
    intro fs r h e he
    simp only [cogPhase] at h
    cases h1 : cogStep fk sfx m nd fs it with
    | error e2 =>
      simp only [h1] at h
      cases h
    | ok r1 =>
      simp only [h1] at h
      cases h2 : cogPhase fk sfx m nd rest r1.2 with
      | error e2 =>
        simp only [h2] at h
        cases h
      | ok r2 =>
        simp only [h2] at h
        injection h with h
        subst h
        rcases List.mem_append.mp he with hm | hm
        · exact cogStep_kind fk sfx m nd fs it r1 h1 e hm
        · exact ih r1.2 r2 h2 e hm

theorem cogPhase_error_shape (fk : String → Option String) (sfx : String → String)
    (m : ProdMeta) (nd : String) :
    ∀ (items : List FItem) (fs : FS) (e : Err),
      cogPhase fk sfx m nd items fs = .error e → ∃ fls, e = .mismatch fls := by
  intro items
  induction items with
  | nil => intro fs e h; cases h
  | cons it rest ih =>
    intro fs e h
    simp only [cogPhase] at h
    cases h1 : cogStep fk sfx m nd fs it with
    | error e2 =>
      simp only [h1] at h
      obtain rfl := Except.error.inj h
      exact cogStep_error_shape fk sfx m nd fs it _ h1
    | ok r1 =>
      simp only [h1] at h
      cases h2 : cogPhase fk sfx m nd rest r1.2 with
      | error e2 =>
        simp only [h2] at h
        obtain rfl := Except.error.inj h
        exact ih r1.2 _ h2
      | ok r2 =>
        simp only [h2] at h
        cases h

theorem postRename_ok_subset (w : World) (demType polC : String)
    (wbm : Option String) (fs : FS) (rP : List Event × FS)
    (h : postRename w demType polC wbm fs = .ok rP) : fs ⊆ rP.2 := by
  simp only [postRename] at h
  cases hdm : dmPhase wbm demType (pyReplace w.gsPath "-gs.tif" "-dm.tif")
      ((ccPhase polC w.measurePaths (phaseFold logStep w.measurePaths fs).2).2) with
  | error e =>
    simp only [hdm] at h
    cases h
  | ok rDM =>
    simp only [hdm] at h
    injection h with h
    subst h
    intro a ha
    exact phaseFold_subset _ sigmaStep_subset _ _
      (writeIfAbsent_subset _ _ _
        (dmPhase_ok_subset _ _ _ _ _ hdm
          (ccPhase_subset _ _ _
            (phaseFold_subset _ logStep_subset _ _ ha))))

theorem postRename_ok_guard (w : World) (demType polC : String)
    (wbm : Option String) (fs : FS) (rP : List Event × FS)
    (h : postRename w demType polC wbm fs = .ok rP) (k : EKind) (q : String)
    (hk : k ≠ EKind.ccVrt) (hq : q ∈ fs) : Event.write k q ∉ rP.1 := by
  simp only [postRename] at h
  cases hdm : dmPhase wbm demType (pyReplace w.gsPath "-gs.tif" "-dm.tif")
      ((ccPhase polC w.measurePaths (phaseFold logStep w.measurePaths fs).2).2) with
  | error e =>
    simp only [hdm] at h
    cases h
  | ok rDM =>
    simp only [hdm] at h
    injection h with h
    subst h
    have hq1 : q ∈ (phaseFold logStep w.measurePaths fs).2 :=
      phaseFold_subset _ logStep_subset _ _ hq
    have hq2 : q ∈ (ccPhase polC w.measurePaths (phaseFold logStep w.measurePaths fs).2).2 :=
      ccPhase_subset _ _ _ hq1
    have hq3 : q ∈ rDM.2 := dmPhase_ok_subset _ _ _ _ _ hdm hq2
    have hq4 : q ∈ (acqPhase w.acqIdPath rDM.2).2 := writeIfAbsent_subset _ _ _ hq3
    intro hmem
    simp only [List.mem_append] at hmem
    rcases hmem with ((((h1 | h2) | h3) | h4) | h5)
    · exact phaseFold_guard _ logStep_subset logStep_guard _ _ _ _ hq h1
    · have := ccPhase_kind polC w.measurePaths _ _ h2
      injection this with hkk hpp
      exact hk hkk
    · exact dmPhase_ok_guard _ _ _ _ _ hdm _ _ hq2 h3
    · exact writeIfAbsent_guard _ _ _ _ _ hq3 h4
    · exact phaseFold_guard _ sigmaStep_subset sigmaStep_guard _ _ _ _ hq4 h5

theorem postRename_no_cog (w : World) (demType polC : String)
    (wbm : Option String) (fs : FS) (rP : List Event × FS)
    (h : postRename w demType polC wbm fs = .ok rP) (e : Event) (he : e ∈ rP.1) :
    ∀ p, e ≠ Event.write .cog p := by
  simp only [postRename] at h
  cases hdm : dmPhase wbm demType (pyReplace w.gsPath "-gs.tif" "-dm.tif")
      ((ccPhase polC w.measurePaths (phaseFold logStep w.measurePaths fs).2).2) with
  | error e2 =>
    simp only [hdm] at h
    cases h
  | ok rDM =>
    simp only [hdm] at h
    injection h with h
    subst h
    simp only [List.mem_append] at he
    intro p hep
    subst hep
    rcases he with ((((h1 | h2) | h3) | h4) | h5)
    · obtain ⟨p2, hp2⟩ := phaseFold_kind _ (fun x => ∃ q, x = Event.write .logVrt q)
        (fun m2 fs2 e2 he2 => logStep_kind m2 fs2 e2 he2) _ _ _ h1
      cases hp2
    · have := ccPhase_kind polC w.measurePaths _ _ h2
      cases this
    · have := dmPhase_ok_kind _ _ _ _ _ hdm _ h3
      cases this
    · have := writeIfAbsent_kind _ _ _ _ h4
      cases this
    · rcases phaseFold_kind _
          (fun x => (∃ q, x = Event.write .sigmaLin q) ∨ (∃ q, x = Event.write .sigmaLog q))
          (fun m2 fs2 e2 he2 => sigmaStep_kind m2 fs2 e2 he2) _ _ _ h5 with
        ⟨p2, hp2⟩ | ⟨p2, hp2⟩ <;> cases hp2

theorem postRename_cc (w : World) (demType polC : String) (wbm : Option String)
    (fs : FS) (rP : List Event × FS)
    (h : postRename w demType polC wbm fs = .ok rP)
    (h1 : polC = "DH" ∨ polC = "DV") (h2 : w.measurePaths.length = 2) :
    Event.write .ccVrt (ccPathOf (w.measurePaths.headD "")) ∈ rP.1 := by
  simp only [postRename] at h
  cases hdm : dmPhase wbm demType (pyReplace w.gsPath "-gs.tif" "-dm.tif")
      ((ccPhase polC w.measurePaths (phaseFold logStep w.measurePaths fs).2).2) with
  | error e =>
    simp only [hdm] at h
    cases h
  | ok rDM =>
    simp only [hdm] at h
    injection h with h
    subst h
    have := ccPhase_fires polC w.measurePaths
      ((phaseFold logStep w.measurePaths fs).2) h1 h2
    simp only [List.mem_append]
    tauto

theorem postRename_error_shape (w : World) (demType polC : String)
    (wbm : Option String) (fs : FS) (e : Err)
    (h : postRename w demType polC wbm fs = .error e) : ∃ p, e = .fileNotFound p := by
  simp only [postRename] at h
  cases hdm : dmPhase wbm demType (pyReplace w.gsPath "-gs.tif" "-dm.tif")
      ((ccPhase polC w.measurePaths (phaseFold logStep w.measurePaths fs).2).2) with
  | error e2 =>
    simp only [hdm] at h
    obtain rfl := Except.error.inj h
    exact dmPhase_error_shape _ _ _ _ _ hdm
  | ok rDM =>
    simp only [hdm] at h
    cases h

theorem assembly_ok_decomp (w : World) (demType : String) (m : ProdMeta)
    (outdir : String) (wbm : Option String) (ds2 : List (List String)) (fs : FS)
    (tr : List Event) (fs9 : FS)
    (h : assembly w demType m outdir wbm ds2 fs = .ok (tr, fs9)) :
    ∃ rC rP,
      cogPhase w.findKey w.suffixOf m (pjoin outdir (skeletonDir m))
          (mkFilesItems ds2) fs = .ok rC ∧
      postRename w demType m.polarization wbm rC.2 = .ok rP ∧
      tr = rC.1 ++ Event.rename (pjoin outdir (skeletonDir m))
            (pyReplace (pjoin outdir (skeletonDir m)) "ABCD" w.productId) ::
            (rP.1 ++
              [Event.write .xmlMeta (pyReplace (pjoin outdir (skeletonDir m)) "ABCD" w.productId),
               Event.write .stacMeta (pyReplace (pjoin outdir (skeletonDir m)) "ABCD" w.productId)]) ∧
      fs9 = rP.2 := by
  simp only [assembly] at h
  cases hC : cogPhase w.findKey w.suffixOf m (pjoin outdir (skeletonDir m))
      (mkFilesItems ds2) fs with
  | error e =>
    simp only [hC] at h
    cases h
  | ok rC =>
    simp only [hC] at h
    cases hP : postRename w demType m.polarization wbm rC.2 with
    | error e =>
      simp only [hP] at h
      cases h
    | ok rP =>
      simp only [hP] at h
      injection h with h
      injection h with h1 h2
      exact ⟨rC, rP, rfl, hP, h1.symm, h2.symm⟩


/-- C1 (amended): in the assembly, the content-derived product id and the
directory rename come immediately after the guarded measurement and
annotation COG writes; the log-scale, color-composite, data-mask,
acquisition-id and sigma-nought rasters and the metadata are written
after the rename, into the renamed directory.  Every event before the
rename is a COG write and every non-COG write comes after the rename. -/
theorem rename_after_cog_before_derived (w : World) (demType : String)
    (m : ProdMeta) (outdir : String) (wbm : Option String)
    (ds2 : List (List String)) (fs : FS) (tr : List Event) (fs9 : FS)
    (h : assembly w demType m outdir wbm ds2 fs = .ok (tr, fs9)) :
    ∃ pre post,
      tr = pre ++ Event.rename (pjoin outdir (skeletonDir m))
          (pyReplace (pjoin outdir (skeletonDir m)) "ABCD" w.productId) :: post ∧
      (∀ e ∈ pre, ∃ p, e = Event.write .cog p) ∧
      (∀ k p, Event.write k p ∈ tr → k ≠ EKind.cog → Event.write k p ∈ post) := by
  obtain ⟨rC, rP, hC, hP, htr, hfs⟩ :=
    assembly_ok_decomp w demType m outdir wbm ds2 fs tr fs9 h
  refine ⟨rC.1, _, htr, ?_, ?_⟩
  · exact fun e he => cogPhase_kind w.findKey w.suffixOf m _ _ _ _ hC e he
  · intro k p hmem hk
    rw [htr] at hmem
    rcases List.mem_append.mp hmem with hm | hm
    · obtain ⟨p0, hp0⟩ := cogPhase_kind w.findKey w.suffixOf m _ _ _ _ hC _ hm
      injection hp0 with h1 h2
      exact absurd h1 hk
    · rcases List.mem_cons.mp hm with heq | hm2
      · cases heq
      · exact hm2

/-- Witness for the amended C1 at a concrete successful run. -/
theorem rename_after_cog_before_derived_witness :
    ∃ pre post,
      ([Event.rename "out/S1A_IW_NRB__1SSV_20200101T000000_012345_01A_T01_ABCD"
            "out/S1A_IW_NRB__1SSV_20200101T000000_012345_01A_T01_0A1B2C",
        Event.write .logVrt "m/vv-g-log.vrt",
        Event.write .dataMask "m/q-dm.tif",
        Event.write .acqId "m/q-id.tif",
        Event.write .sigmaLin "m/vv-s-lin.vrt",
        Event.write .sigmaLog "m/vv-s-log.vrt",
        Event.write .xmlMeta "out/S1A_IW_NRB__1SSV_20200101T000000_012345_01A_T01_0A1B2C",
        Event.write .stacMeta "out/S1A_IW_NRB__1SSV_20200101T000000_012345_01A_T01_0A1B2C"] :
        List Event) =
        pre ++ Event.rename (pjoin "out" (skeletonDir cxMeta))
          (pyReplace (pjoin "out" (skeletonDir cxMeta)) "ABCD" cxW.productId) :: post ∧
      (∀ e ∈ pre, ∃ p, e = Event.write .cog p) ∧
      (∀ k p, Event.write k p ∈
          ([Event.rename "out/S1A_IW_NRB__1SSV_20200101T000000_012345_01A_T01_ABCD"
                "out/S1A_IW_NRB__1SSV_20200101T000000_012345_01A_T01_0A1B2C",
            Event.write .logVrt "m/vv-g-log.vrt",
            Event.write .dataMask "m/q-dm.tif",
            Event.write .acqId "m/q-id.tif",
            Event.write .sigmaLin "m/vv-s-lin.vrt",
            Event.write .sigmaLog "m/vv-s-log.vrt",
            Event.write .xmlMeta "out/S1A_IW_NRB__1SSV_20200101T000000_012345_01A_T01_0A1B2C",
            Event.write .stacMeta "out/S1A_IW_NRB__1SSV_20200101T000000_012345_01A_T01_0A1B2C"] :
            List Event) →
          k ≠ EKind.cog → Event.write k p ∈ post) :=
  rename_after_cog_before_derived cxW "SRTM" cxMeta "out" none
    [["g/VV_gamma0-rtc.tif"]] [] _
    ["m/vv-s-log.vrt", "m/vv-s-lin.vrt", "m/q-id.tif", "m/q-dm.tif", "m/vv-g-log.vrt"]
    (by rfl)

/-- C3 (amended): every guarded output-file creation of the assembly is
skipped when its path already exists (COG rasters, log and sigma VRTs,
and, per the description of the spec, the data mask and acquisition-id
rasters); the color-composite VRT is the exception and is regenerated
unconditionally for dual-polarization products with two measurement
rasters. -/
theorem assembly_guarded_except_cc (w : World) (demType : String) (m : ProdMeta)
    (outdir : String) (wbm : Option String) (ds2 : List (List String)) (fs : FS)
    (tr : List Event) (fs9 : FS)
    (h : assembly w demType m outdir wbm ds2 fs = .ok (tr, fs9)) :
    (∀ k p, k ≠ EKind.ccVrt → k ≠ EKind.xmlMeta → k ≠ EKind.stacMeta → p ∈ fs →
        Event.write k p ∉ tr) ∧
    ((m.polarization = "DH" ∨ m.polarization = "DV") → w.measurePaths.length = 2 →
        Event.write .ccVrt (ccPathOf (w.measurePaths.headD "")) ∈ tr) := by
  obtain ⟨rC, rP, hC, hP, htr, hfs⟩ :=
    assembly_ok_decomp w demType m outdir wbm ds2 fs tr fs9 h
  constructor
  · intro k p hcc hxml hstac hp hmem
    rw [htr] at hmem
    rcases List.mem_append.mp hmem with hm | hm
    · exact cogPhase_guard w.findKey w.suffixOf m _ _ _ _ hC k p hp hm
    · rcases List.mem_cons.mp hm with heq | hm2
      · cases heq
      · rcases List.mem_append.mp hm2 with hm3 | hm3
        · exact postRename_ok_guard w demType m.polarization wbm rC.2 rP hP k p hcc
            (cogPhase_subset w.findKey w.suffixOf m _ _ _ _ hC hp) hm3
        · rcases List.mem_cons.mp hm3 with heq | hm4
          · injection heq with h1 h2
            exact hxml h1
          · rcases List.mem_cons.mp hm4 with heq | hm5
            · injection heq with h1 h2
              exact hstac h1
            · cases hm5
  · intro h1 h2
    rw [htr]
    refine List.mem_append.mpr (Or.inr ?_)
    refine List.mem_cons.mpr (Or.inr ?_)
    exact List.mem_append.mpr
      (Or.inl (postRename_cc w demType m.polarization wbm rC.2 rP hP h1 h2))

/-- Witness for the amended C3 at a concrete dual-polarization run whose
initial path set already holds the vv log VRT: no guarded kind rewrites
an existing path, and the color composite is written although its path
exists afterwards too. -/
theorem assembly_guarded_except_cc_witness :
    (∀ k p, k ≠ EKind.ccVrt → k ≠ EKind.xmlMeta → k ≠ EKind.stacMeta →
        p ∈ (["m/vv-g-log.vrt"] : FS) → Event.write k p ∉ c3wTrace) ∧
    ((ccMeta.polarization = "DH" ∨ ccMeta.polarization = "DV") →
        ccW.measurePaths.length = 2 →
        Event.write .ccVrt (ccPathOf (ccW.measurePaths.headD "")) ∈ c3wTrace) :=
  assembly_guarded_except_cc ccW "SRTM" ccMeta "out" none
    [["g/VV_gamma0-rtc.tif"]] ["m/vv-g-log.vrt"] c3wTrace c3wFs (by rfl)

/-- Counterexample to C1 as stated: a successful concrete run of
nrb_processing in which raster files (the log VRT, data mask,
acquisition-id and sigma VRTs) are written after the directory rename,
so the rename does not come after every raster write. -/
theorem rename_not_last_counterexample :
    (nrbProcessing cxW "SRTM" ["S1A_test.zip"] "data" "out" "T01" 32632 none []).map
        (fun r => rasterWritesAfterRename r.1) = Except.ok true := by
  have hres1 : (resolve cxW "data" 32632 ["S1A_test.zip"]).1 = [cxScene] := rfl
  have hres2 : (resolve cxW "data" 32632 ["S1A_test.zip"]).2 = [["g/VV_gamma0-rtc.tif"]] := rfl
  have hloop : overlapLoop cxW.ov [cxScene] [["g/VV_gamma0-rtc.tif"]] 0 [] =
      .ok ([cxScene], [["g/VV_gamma0-rtc.tif"]], ["g/datamask.tif"]) := by
    have h := overlapLoop_spec cxW.ov [cxScene] [["g/VV_gamma0-rtc.tif"]] rfl (by decide)
    rw [h]
    rfl
  simp only [nrbProcessing, hres1, hres2]
  rw [if_neg (by decide), hloop]
  rfl

/-- Counterexample to C3 as stated: with the color-composite VRT already
present in the path set, the dual-polarization assembly still emits the
write for it, so that output-file creation is not guarded by an
existence check. -/
theorem cc_regenerated_counterexample :
    ("m/cc-g-lin.vrt" ∈ (["m/cc-g-lin.vrt"] : FS)) ∧
    assembly ccW "SRTM" ccMeta "out" none [["g/VV_gamma0-rtc.tif"]]
        ["m/cc-g-lin.vrt"] =
      .ok ([Event.rename "out/S1A_IW_NRB__1SDV_20200101T000000_012345_01A_T01_ABCD"
              "out/S1A_IW_NRB__1SDV_20200101T000000_012345_01A_T01_0A1B2C",
            Event.write .logVrt "m/vv-g-log.vrt",
            Event.write .logVrt "m/vh-g-log.vrt",
            Event.write .ccVrt "m/cc-g-lin.vrt",
            Event.write .dataMask "m/q-dm.tif",
            Event.write .acqId "m/q-id.tif",
            Event.write .sigmaLin "m/vv-s-lin.vrt",
            Event.write .sigmaLog "m/vv-s-log.vrt",
            Event.write .sigmaLin "m/vh-s-lin.vrt",
            Event.write .sigmaLog "m/vh-s-log.vrt",
            Event.write .xmlMeta "out/S1A_IW_NRB__1SDV_20200101T000000_012345_01A_T01_0A1B2C",
            Event.write .stacMeta "out/S1A_IW_NRB__1SDV_20200101T000000_012345_01A_T01_0A1B2C"],
           ["m/vh-s-log.vrt", "m/vh-s-lin.vrt", "m/vv-s-log.vrt", "m/vv-s-lin.vrt",
            "m/q-id.tif", "m/q-dm.tif", "m/vh-g-log.vrt", "m/vv-g-log.vrt",
            "m/cc-g-lin.vrt"]) ∧
    Event.write .ccVrt "m/cc-g-lin.vrt" ∈
      [Event.rename "out/S1A_IW_NRB__1SDV_20200101T000000_012345_01A_T01_ABCD"
          "out/S1A_IW_NRB__1SDV_20200101T000000_012345_01A_T01_0A1B2C",
       Event.write .logVrt "m/vv-g-log.vrt",
       Event.write .logVrt "m/vh-g-log.vrt",
       Event.write .ccVrt "m/cc-g-lin.vrt",
       Event.write .dataMask "m/q-dm.tif",
       Event.write .acqId "m/q-id.tif",
       Event.write .sigmaLin "m/vv-s-lin.vrt",
       Event.write .sigmaLog "m/vv-s-log.vrt",
       Event.write .sigmaLin "m/vh-s-lin.vrt",
       Event.write .sigmaLog "m/vh-s-log.vrt",
       Event.write .xmlMeta "out/S1A_IW_NRB__1SDV_20200101T000000_012345_01A_T01_0A1B2C",
       Event.write .stacMeta "out/S1A_IW_NRB__1SDV_20200101T000000_012345_01A_T01_0A1B2C"] :=
  ⟨by decide, by rfl, by decide⟩

/-!  The polarization class lookup (claim C4).  -/

theorem pyJoin_len_valid (pols : List String)
    (h : ∀ p ∈ pols, p = "HH" ∨ p = "HV" ∨ p = "VV" ∨ p = "VH") (hne : pols ≠ []) :
    (pyJoin ", " (pols.map pyRepr)).length = 4 + 6 * (pols.length - 1) := by
  induction pols with
  | nil => exact absurd rfl hne
  | cons p rest ih =>
    have hp := h p (by simp)
    have hp4 : (pyRepr p).length = 4 := by
      rcases hp with rfl | rfl | rfl | rfl <;> decide
    cases rest with
    | nil =>
      simp only [List.map, pyJoin]
      simpa using hp4
    | cons q rest2 =>
      have ih2 := ih (fun x hx => h x (by simp [hx])) (by simp)
      simp only [List.map, pyJoin] at ih2 ⊢
      rw [String.length_append, String.length_append, hp4, ih2]
      simp only [List.length_cons]
      have hsep : (", " : String).length = 2 := by decide
      rw [hsep]
      omega

theorem pyStrList_len_valid (pols : List String)
    (h : ∀ p ∈ pols, p = "HH" ∨ p = "HV" ∨ p = "VV" ∨ p = "VH") (hne : pols ≠ []) :
    (pyStrList pols).length = 6 * pols.length := by
  have hj := pyJoin_len_valid pols h hne
  have hlen : 1 ≤ pols.length := by
    cases pols with
    | nil => exact absurd rfl hne
    | cons a l => simp
  simp only [pyStrList]
  rw [String.length_append, String.length_append, hj]
  have h1 : ("[" : String).length = 1 := by decide
  have h2 : ("]" : String).length = 1 := by decide
  rw [h1, h2]
  omega

theorem polClass_none_of_long (pols : List String)
    (h : ∀ p ∈ pols, p = "HH" ∨ p = "HV" ∨ p = "VV" ∨ p = "VH")
    (hlen : 3 ≤ pols.length) : polClass pols = none := by
  have hne : pols ≠ [] := by
    intro he
    rw [he] at hlen
    simp at hlen
  have hl := pyStrList_len_valid pols h hne
  have h18 : 18 ≤ (pyStrList pols).length := by omega
  have hk1 : (pyStrList pols == "[" ++ qs ++ "HH" ++ qs ++ "]") = false := by
    refine beq_eq_false_iff_ne.mpr (fun he => ?_)
    rw [he] at h18
    revert h18
    decide
  have hk2 : (pyStrList pols == "[" ++ qs ++ "VV" ++ qs ++ "]") = false := by
    refine beq_eq_false_iff_ne.mpr (fun he => ?_)
    rw [he] at h18
    revert h18
    decide
  have hk3 : (pyStrList pols ==
      "[" ++ qs ++ "HH" ++ qs ++ ", " ++ qs ++ "HV" ++ qs ++ "]") = false := by
    refine beq_eq_false_iff_ne.mpr (fun he => ?_)
    rw [he] at h18
    revert h18
    decide
  have hk4 : (pyStrList pols ==
      "[" ++ qs ++ "VV" ++ qs ++ ", " ++ qs ++ "VH" ++ qs ++ "]") = false := by
    refine beq_eq_false_iff_ne.mpr (fun he => ?_)
    rw [he] at h18
    revert h18
    decide
  simp only [polClass, polMap, List.lookup, hk1, hk2, hk3, hk4]

/-- C4: the polarization class is a function of the exact order-sensitive
polarization list of the first scene: only the four listed forms map
(to SH, SV, DH, DV respectively) and every other polarization list hits
the KeyError of the dictionary lookup.  The hypothesis restricts the
elements to the four Sentinel-1 polarization tokens, the domain of the
polarizations attribute. -/
theorem polarization_mapping (pols : List String)
    (h : ∀ p ∈ pols, p = "HH" ∨ p = "HV" ∨ p = "VV" ∨ p = "VH") :
    (polClass pols = some "SH" ↔ pols = ["HH"]) ∧
    (polClass pols = some "SV" ↔ pols = ["VV"]) ∧
    (polClass pols = some "DH" ↔ pols = ["HH", "HV"]) ∧
    (polClass pols = some "DV" ↔ pols = ["VV", "VH"]) ∧
    (polClass pols = none ↔
      pols ∉ ([["HH"], ["VV"], ["HH", "HV"], ["VV", "VH"]] : List (List String))) := by
  match pols, h with
  | [], _ => decide
  | [a], h =>
    rcases h a (by simp) with rfl | rfl | rfl | rfl <;> decide
  | [a, b], h =>
    rcases h a (by simp) with rfl | rfl | rfl | rfl <;>
      rcases h b (by simp) with rfl | rfl | rfl | rfl <;> decide
  | a :: b :: c :: rest, h =>
    have hnone : polClass (a :: b :: c :: rest) = none :=
      polClass_none_of_long _ h (by simp)
    refine ⟨?_, ?_, ?_, ?_, ?_⟩
    · constructor
      · intro hx
        rw [hnone] at hx
        cases hx
      · intro hx
        rw [hx] at hnone
        exact absurd hnone (by decide)
    · constructor
      · intro hx
        rw [hnone] at hx
        cases hx
      · intro hx
        rw [hx] at hnone
        exact absurd hnone (by decide)
    · constructor
      · intro hx
        rw [hnone] at hx
        cases hx
      · intro hx
        rw [hx] at hnone
        exact absurd hnone (by decide)
    · constructor
      · intro hx
        rw [hnone] at hx
        cases hx
      · intro hx
        rw [hx] at hnone
        exact absurd hnone (by decide)
    · constructor
      · intro _ hmem
        simp only [List.mem_cons, List.mem_singleton] at hmem
        rcases hmem with hx | hx | hx | hx | hx
        · rw [hx] at hnone
          exact absurd hnone (by decide)
        · rw [hx] at hnone
          exact absurd hnone (by decide)
        · rw [hx] at hnone
          exact absurd hnone (by decide)
        · rw [hx] at hnone
          exact absurd hnone (by decide)
        · cases hx
      · intro _
        exact hnone

/-- Witness for C4 at the four mapped lists and one unmapped list. -/
theorem polarization_mapping_witness :
    ((polClass ["HH"] = some "SH" ↔ (["HH"] : List String) = ["HH"]) ∧
     (polClass ["HH"] = some "SV" ↔ (["HH"] : List String) = ["VV"]) ∧
     (polClass ["HH"] = some "DH" ↔ (["HH"] : List String) = ["HH", "HV"]) ∧
     (polClass ["HH"] = some "DV" ↔ (["HH"] : List String) = ["VV", "VH"]) ∧
     (polClass ["HH"] = none ↔
       (["HH"] : List String) ∉ ([["HH"], ["VV"], ["HH", "HV"], ["VV", "VH"]] :
         List (List String)))) ∧
    ((polClass ["VH", "VV"] = some "SH" ↔ (["VH", "VV"] : List String) = ["HH"]) ∧
     (polClass ["VH", "VV"] = some "SV" ↔ (["VH", "VV"] : List String) = ["VV"]) ∧
     (polClass ["VH", "VV"] = some "DH" ↔ (["VH", "VV"] : List String) = ["HH", "HV"]) ∧
     (polClass ["VH", "VV"] = some "DV" ↔ (["VH", "VV"] : List String) = ["VV", "VH"]) ∧
     (polClass ["VH", "VV"] = none ↔
       (["VH", "VV"] : List String) ∉ ([["HH"], ["VV"], ["HH", "HV"], ["VV", "VH"]] :
         List (List String)))) :=
  ⟨polarization_mapping ["HH"] (by decide),
   polarization_mapping ["VH", "VV"] (by decide)⟩

/-!  The number fields of the naming skeleton (claim C5).  -/

theorem decDigitVal_round (d : Nat) (hd : d < 10) :
    decDigitVal (decDigitChar d) = d := by
  interval_cases d <;> decide

theorem decDigitChar_mem (d : Nat) (hd : d < 10) : decDigitChar d ∈ decChars := by
  interval_cases d <;> decide

theorem digitsAux_dec_spec : ∀ (fuel n : Nat), n < fuel →
    digitsAux decDigitChar 10 fuel n ≠ [] ∧
    parseDec (digitsAux decDigitChar 10 fuel n) = n ∧
    ∀ c ∈ digitsAux decDigitChar 10 fuel n, c ∈ decChars := by
  intro fuel
  induction fuel with
  | zero => intro n hn; omega
  | succ fuel ih =>
    intro n hn
    by_cases h10 : n < 10
    · simp only [digitsAux, if_pos h10]
      refine ⟨by simp, ?_, ?_⟩
      · simp [parseDec, decDigitVal_round n h10]
      · intro c hc
        simp only [List.mem_singleton] at hc
        subst hc
        exact decDigitChar_mem n h10
    · have hdiv : n / 10 < fuel := by
        have h1 : n / 10 < n := Nat.div_lt_self (by omega) (by omega)
        omega
      obtain ⟨hne, hparse, hchars⟩ := ih (n / 10) hdiv
      simp only [digitsAux, if_neg h10]
      refine ⟨by simp, ?_, ?_⟩
      · simp only [parseDec] at hparse ⊢
        rw [List.foldl_append]
        simp only [List.foldl_cons, List.foldl_nil]
        rw [hparse, decDigitVal_round (n % 10) (Nat.mod_lt _ (by omega))]
        omega
      · intro c hc
        rcases List.mem_append.mp hc with hc | hc
        · exact hchars c hc
        · simp only [List.mem_singleton] at hc
          subst hc
          exact decDigitChar_mem _ (Nat.mod_lt _ (by omega))

theorem digitsAux_dec_len : ∀ (k fuel n : Nat), n < fuel → n < 10 ^ k → 1 ≤ k →
    (digitsAux decDigitChar 10 fuel n).length ≤ k := by
  intro k
  induction k with
  | zero => intro fuel n _ _ h1; omega
  | succ k ihk =>
    intro fuel n hfuel hpow _
    cases fuel with
    | zero => omega
    | succ fuel =>
      by_cases h10 : n < 10
      · simp only [digitsAux, if_pos h10, List.length_singleton]
        omega
      · have hk1 : 1 ≤ k := by
          by_contra hk0
          have hk : k = 0 := by omega
          subst hk
          have h1 : (10 : Nat) ^ (0 + 1) = 10 := by norm_num
          rw [h1] at hpow
          omega
        have hdiv : n / 10 < fuel := by
          have h1 : n / 10 < n := Nat.div_lt_self (by omega) (by omega)
          omega
        have hdivpow : n / 10 < 10 ^ k := by
          rw [Nat.div_lt_iff_lt_mul (by omega)]
          calc n < 10 ^ (k + 1) := hpow
            _ = 10 ^ k * 10 := by rw [Nat.pow_succ]
        simp only [digitsAux, if_neg h10, List.length_append, List.length_singleton]
        have := ihk fuel (n / 10) hdiv hdivpow hk1
        omega

theorem parseDec_zeros (k : Nat) (cs : List Char) :
    parseDec (List.replicate k '0' ++ cs) = parseDec cs := by
  induction k with
  | zero => rfl
  | succ k ih =>
    simp only [parseDec, List.replicate, List.cons_append, List.foldl_cons] at ih ⊢
    have h0 : (10 * 0 + decDigitVal '0') = 0 := by decide
    rw [h0]
    exact ih

theorem pad6_spec (n : Nat) (h : n < 1000000) :
    (pad6 n).length = 6 ∧ parseDec (pad6 n).toList = n ∧
    ∀ c ∈ (pad6 n).toList, c ∈ decChars := by
  obtain ⟨hne, hparse, hchars⟩ := digitsAux_dec_spec (n + 1) n (by omega)
  have hlen6 : (digitsAux decDigitChar 10 (n + 1) n).length ≤ 6 := by
    apply digitsAux_dec_len 6 (n + 1) n (by omega) ?_ (by omega)
    have h6 : (10 : Nat) ^ 6 = 1000000 := by norm_num
    omega
  have hnatlen : (natStr n).length = (digitsAux decDigitChar 10 (n + 1) n).length := rfl
  by_cases hlt : (natStr n).length < 6
  · have hrep : pad6 n =
        (List.replicate (6 - (natStr n).length) '0').asString ++ natStr n := by
      simp only [pad6, if_pos hlt]
    have htl : (pad6 n).toList =
        List.replicate (6 - (natStr n).length) '0' ++ digitsAux decDigitChar 10 (n + 1) n := by
      rw [hrep]
      rfl
    refine ⟨?_, ?_, ?_⟩
    · rw [hrep, String.length_append]
      have h1 : ((List.replicate (6 - (natStr n).length) '0').asString).length =
          6 - (natStr n).length := by
        show (List.replicate (6 - (natStr n).length) '0').length = _
        simp
      rw [h1]
      omega
    · rw [htl, parseDec_zeros]
      exact hparse
    · intro c hc
      rw [htl] at hc
      rcases List.mem_append.mp hc with hc | hc
      · have : c = '0' := List.eq_of_mem_replicate hc
        subst this
        decide
      · exact hchars c hc
  · have hrep : pad6 n = natStr n := by
      simp only [pad6, if_neg hlt]
    refine ⟨?_, ?_, ?_⟩
    · rw [hrep]
      omega
    · rw [hrep]
      exact hparse
    · intro c hc
      rw [hrep] at hc
      exact hchars c hc

theorem hexDigitChar_ne_x (d : Nat) : hexDigitChar d ≠ 'x' := by
  by_cases hd : d < 16
  · interval_cases d <;> decide
  · have hl : hexChars.length = 16 := by decide
    have hdef : hexChars.getD d (Char.ofNat 42) = Char.ofNat 42 :=
      List.getD_eq_default _ _ (by omega)
    simp only [hexDigitChar]
    rw [hdef]
    decide

theorem digitsAux_hex_chars : ∀ (fuel n : Nat), ∀ c ∈ digitsAux hexDigitChar 16 fuel n,
    ∃ d, c = hexDigitChar d := by
  intro fuel
  induction fuel with
  | zero => intro n c hc; cases hc
  | succ fuel ih =>
    intro n c hc
    by_cases h16 : n < 16
    · simp only [digitsAux, if_pos h16, List.mem_singleton] at hc
      exact ⟨n, hc⟩
    · simp only [digitsAux, if_neg h16] at hc
      rcases List.mem_append.mp hc with hc | hc
      · exact ih _ c hc
      · simp only [List.mem_singleton] at hc
        exact ⟨n % 16, hc⟩

theorem replAux_x_id (cs : List Char) (hcs : ∀ c ∈ cs, c ≠ 'x') :
    replAux ['x'] [] 0 cs = cs := by
  induction cs with
  | nil => rfl
  | cons c rest ih =>
    have hc := hcs c (by simp)
    simp only [replAux]
    rw [if_neg ?_]
    · rw [ih (fun x hx => hcs x (by simp [hx]))]
    · simp only [List.isPrefixOf, Bool.and_eq_true, beq_iff_eq]
      intro he
      exact hc he.1.symm

theorem datatake_leading_zero (f : Nat) : datatakeField f = "0" ++ specUpperHex f := by
  have hx : ∀ c ∈ hexDigits f, c ≠ 'x' := by
    intro c hc
    obtain ⟨d, rfl⟩ := digitsAux_hex_chars (f + 1) f c hc
    exact hexDigitChar_ne_x d
  have hdata : (pyHex f).toList = '0' :: 'x' :: hexDigits f := by
    simp only [pyHex]
    rfl
  have hrep : pyReplace (pyHex f) "x" "" = "0" ++ (hexDigits f).asString := by
    apply String.ext
    have hne : ("x" : String).toList.isEmpty = false := by decide
    simp only [pyReplace, hne, Bool.false_eq_true, if_false]
    show (replAux "x".toList "".toList 0 (pyHex f).toList) = _
    rw [hdata]
    show replAux ['x'] [] 0 ('0' :: 'x' :: hexDigits f) = _
    simp only [replAux]
    rw [if_neg (by simp [List.isPrefixOf]), if_pos (by simp [List.isPrefixOf])]
    show '0' :: replAux ['x'] [] 0 (hexDigits f) = _
    rw [replAux_x_id (hexDigits f) hx]
    rfl
  simp only [datatakeField, hrep]
  apply String.ext
  show List.map Char.toUpper (("0" ++ (hexDigits f).asString).toList) = _
  have h2 : ("0" ++ (hexDigits f).asString).toList = '0' :: hexDigits f := rfl
  rw [h2]
  simp only [List.map_cons]
  have h3 : Char.toUpper '0' = '0' := by decide
  rw [h3]
  rfl

/-- Counterexample to C5 as stated: at frame number 26 the code renders
the datatake field as 01A (the zero of the 0x prefix survives the
replace), while the bare uppercase hexadecimal digits are 1A. -/
theorem datatake_prefix_zero_counterexample :
    datatakeField 26 = "01A" ∧ specUpperHex 26 = "1A" ∧
    datatakeField 26 ≠ specUpperHex 26 :=
  ⟨by decide, by decide, by decide⟩

/-- C5 (amended): the orbit field of the skeleton is the decimal orbit
number zero-padded on the left to exactly six digits (six characters,
all decimal digits, parsing back to the orbit number); the datatake
field is a literal zero left over from the 0x prefix of the Python hex
rendering, followed by the uppercase hexadecimal digits of the frame
number. -/
theorem orbit_and_datatake_fields (n f : Nat) (h : n < 1000000) :
    (pad6 n).length = 6 ∧ parseDec (pad6 n).toList = n ∧
    (∀ c ∈ (pad6 n).toList, c ∈ decChars) ∧
    datatakeField f = "0" ++ specUpperHex f :=
  ⟨(pad6_spec n h).1, (pad6_spec n h).2.1, (pad6_spec n h).2.2,
   datatake_leading_zero f⟩

/-- Witness for the amended C5 at the sample orbit and frame numbers. -/
theorem orbit_and_datatake_fields_witness :
    (12345 < 1000000) ∧
    ((pad6 12345).length = 6 ∧ parseDec (pad6 12345).toList = 12345 ∧
     (∀ c ∈ (pad6 12345).toList, c ∈ decChars) ∧
     datatakeField 26 = "0" ++ specUpperHex 26) :=
  ⟨by decide, orbit_and_datatake_fields 12345 26 (by decide)⟩

/-!  The no-overlap error (claim C6) and the unreachable no-datasets
guard (claim C9).  -/

theorem resolve_snd_length (w : World) (datadir : String) (epsg : Nat)
    (scenes : List String) : (resolve w datadir epsg scenes).2.length = scenes.length := by
  simp [resolve]

/-- C6: when zero scenes survive the tile-overlap filter, nrb_processing
raises the RuntimeError whose message carries the tile id and the Python
rendering of the full scenes list, and no product content is generated:
the run produces no event trace. -/
theorem no_overlap_error (w : World) (demType : String) (scenes : List String)
    (datadir outdir tile : String) (epsg : Nat) (wbm : Option String) (fs : FS)
    (h1 : scenes ≠ [])
    (h2 : ∃ ds2 snap, overlapLoop w.ov (resolve w datadir epsg scenes).1
        (resolve w datadir epsg scenes).2 0 [] = .ok ([], ds2, snap)) :
    nrbProcessing w demType scenes datadir outdir tile epsg wbm fs =
      .error (.noOverlap tile scenes) ∧
    (∃ a b, errMsg (.noOverlap tile scenes) = a ++ (tile ++ b)) ∧
    (∃ a, errMsg (.noOverlap tile scenes) = a ++ pyStrList scenes) ∧
    (∀ tr fs9, nrbProcessing w demType scenes datadir outdir tile epsg wbm fs ≠
      .ok (tr, fs9)) := by
  obtain ⟨ds2, snap, hloop⟩ := h2
  have hne : (resolve w datadir epsg scenes).2.length ≠ 0 := by
    rw [resolve_snd_length]
    exact fun h0 => h1 (List.length_eq_zero.mp h0)
  have hmain : nrbProcessing w demType scenes datadir outdir tile epsg wbm fs =
      .error (.noOverlap tile scenes) := by
    simp only [nrbProcessing]
    rw [if_neg hne, hloop]
  refine ⟨hmain, ?_, ?_, ?_⟩
  · refine ⟨"None of the scenes overlap with the current tile ",
      ": 
" ++ pyStrList scenes, ?_⟩
    simp only [errMsg]
    rw [String.append_assoc, String.append_assoc]
  · refine ⟨"None of the scenes overlap with the current tile " ++ tile ++ ": 
", ?_⟩
    simp only [errMsg]
  · intro tr fs9 hok
    rw [hmain] at hok
    cases hok

/-- Witness for C6: one scene whose valid-data boundary misses the tile. -/
theorem no_overlap_error_witness :
    nrbProcessing nvW "SRTM" ["S1A_test.zip"] "data" "out" "T01" 32632 none [] =
      .error (.noOverlap "T01" ["S1A_test.zip"]) ∧
    (∃ a b, errMsg (.noOverlap "T01" ["S1A_test.zip"]) = a ++ ("T01" ++ b)) ∧
    (∃ a, errMsg (.noOverlap "T01" ["S1A_test.zip"]) =
      a ++ pyStrList ["S1A_test.zip"]) ∧
    (∀ tr fs9, nrbProcessing nvW "SRTM" ["S1A_test.zip"] "data" "out" "T01" 32632
      none [] ≠ .ok (tr, fs9)) :=
  no_overlap_error nvW "SRTM" ["S1A_test.zip"] "data" "out" "T01" 32632 none []
    (by decide)
    ⟨[], [], by
      have h := overlapLoop_spec nvW.ov [cxScene] [["g/VV_gamma0-rtc.tif"]] rfl
        (by decide)
      show overlapLoop nvW.ov [cxScene] [["g/VV_gamma0-rtc.tif"]] 0 [] =
        Except.ok ([], [], [])
      rw [h]
      rfl⟩

theorem assembly_error_shape (w : World) (demType : String) (m : ProdMeta)
    (outdir : String) (wbm : Option String) (ds2 : List (List String)) (fs : FS)
    (e : Err) (h : assembly w demType m outdir wbm ds2 fs = .error e) :
    (∃ fls, e = .mismatch fls) ∨ (∃ p, e = .fileNotFound p) := by
  simp only [assembly] at h
  cases hC : cogPhase w.findKey w.suffixOf m (pjoin outdir (skeletonDir m))
      (mkFilesItems ds2) fs with
  | error e2 =>
    simp only [hC] at h
    obtain rfl := Except.error.inj h
    exact Or.inl (cogPhase_error_shape w.findKey w.suffixOf m _ _ _ _ hC)
  | ok rC =>
    simp only [hC] at h
    cases hP : postRename w demType m.polarization wbm rC.2 with
    | error e2 =>
      simp only [hP] at h
      obtain rfl := Except.error.inj h
      exact Or.inr (postRename_error_shape w demType m.polarization wbm rC.2 _ hP)
    | ok rP =>
      simp only [hP] at h
      cases h

/-- C9: one (possibly empty) dataset listing is collected per scene, so
for a non-empty scenes list the guarded length equals the number of
scenes, is nonzero, and the no-datasets RuntimeError is unreachable.
Identification is modelled per scene (pyroSAR identify_many is an
external collaborator of the spec). -/
theorem no_datasets_unreachable (w : World) (demType : String)
    (scenes : List String) (datadir outdir tile : String) (epsg : Nat)
    (wbm : Option String) (fs : FS) (h : scenes ≠ []) :
    (resolve w datadir epsg scenes).2.length = scenes.length ∧
    (resolve w datadir epsg scenes).2.length ≠ 0 ∧
    ∀ d, nrbProcessing w demType scenes datadir outdir tile epsg wbm fs ≠
      .error (.noDatasets d) := by
  have hlen := resolve_snd_length w datadir epsg scenes
  have hne : (resolve w datadir epsg scenes).2.length ≠ 0 := by
    rw [hlen]
    exact fun h0 => h (List.length_eq_zero.mp h0)
  refine ⟨hlen, hne, ?_⟩
  intro d hok
  simp only [nrbProcessing] at hok
  rw [if_neg hne] at hok
  cases hloop : overlapLoop w.ov (resolve w datadir epsg scenes).1
      (resolve w datadir epsg scenes).2 0 [] with
  | error e =>
    rw [hloop] at hok
    have he := overlapLoop_error_shape w.ov
      ((resolve w datadir epsg scenes).2.length) _ _ 0 [] e (by omega) hloop
    subst he
    cases Except.error.inj hok
  | ok trip =>
    obtain ⟨ids2, ds2, snap⟩ := trip
    rw [hloop] at hok
    cases ids2 with
    | nil =>
      cases Except.error.inj hok
    | cons first rest =>
      cases hpol : polClass first.polarizations with
      | none =>
        simp only [hpol] at hok
        cases Except.error.inj hok
      | some polC =>
        simp only [hpol] at hok
        rcases assembly_error_shape w demType _ outdir wbm ds2 fs _ hok with
          ⟨fls, hf⟩ | ⟨p, hp⟩
        · cases hf
        · cases hp

/-- Witness for C9 at a concrete non-empty scenes list. -/
theorem no_datasets_unreachable_witness :
    (resolve cxW "data" 32632 ["S1A_test.zip"]).2.length = (["S1A_test.zip"] : List String).length ∧
    (resolve cxW "data" 32632 ["S1A_test.zip"]).2.length ≠ 0 ∧
    ∀ d, nrbProcessing cxW "SRTM" ["S1A_test.zip"] "data" "out" "T01" 32632 none [] ≠
      .error (.noDatasets d) :=
  no_datasets_unreachable cxW "SRTM" ["S1A_test.zip"] "data" "out" "T01" 32632
    none [] (by decide)

/-!  Category grouping (claim C7) and the water-body mask check
(claim C8).  -/

theorem pyJoin_mem_decomp (sep : String) (ss : List String) (f : String)
    (hf : f ∈ ss) : ∃ pre post, pyJoin sep ss = pre ++ (f ++ post) := by
  induction ss with
  | nil => cases hf
  | cons x rest ih =>
    rcases List.mem_cons.mp hf with rfl | hf2
    · cases rest with
      | nil =>
        refine ⟨"", "", ?_⟩
        show pyJoin sep [f] = "" ++ (f ++ "")
        have h1 : pyJoin sep [f] = f := rfl
        rw [h1]
        apply String.ext
        simp [String.data_append]
      | cons y r2 =>
        refine ⟨"", sep ++ pyJoin sep (y :: r2), ?_⟩
        show pyJoin sep (f :: y :: r2) = "" ++ (f ++ (sep ++ pyJoin sep (y :: r2)))
        have h1 : pyJoin sep (f :: y :: r2) = f ++ sep ++ pyJoin sep (y :: r2) := rfl
        rw [h1]
        apply String.ext
        simp [String.data_append]
    · cases rest with
      | nil => cases hf2
      | cons y r2 =>
        obtain ⟨pre, post, hp⟩ := ih hf2
        refine ⟨x ++ sep ++ pre, post, ?_⟩
        have h1 : pyJoin sep (x :: y :: r2) = x ++ sep ++ pyJoin sep (y :: r2) := rfl
        rw [h1, hp]
        apply String.ext
        simp [String.data_append]

/-- C7: a group whose member files do not all carry the same category key
makes the COG loop fail with the unrecoverable mismatch error whose
message enumerates every file of the group; a mosaic key is only
returned when every file of the group carries exactly that key. -/
theorem category_group_consistency (findKey : String → Option String)
    (ss : List String) :
    ((∃ a ∈ ss, ∃ b ∈ ss, findKey a ≠ findKey b) →
      classify findKey (.group ss) = .error (.mismatch ss)) ∧
    (∀ k, classify findKey (.group ss) = .ok (some k) →
      ∀ f ∈ ss, findKey f = some k) ∧
    (∀ f ∈ ss, ∃ pre post, errMsg (.mismatch ss) = pre ++ (f ++ post)) := by
  refine ⟨?_, ?_, ?_⟩
  · rintro ⟨a, ha, b, hb, hab⟩
    simp only [classify]
    rw [if_pos ?_]
    intro h1
    obtain ⟨x, hx⟩ := List.length_eq_one.mp h1
    have hax : findKey a ∈ (ss.map findKey).dedup :=
      List.mem_dedup.mpr (List.mem_map_of_mem _ ha)
    have hbx : findKey b ∈ (ss.map findKey).dedup :=
      List.mem_dedup.mpr (List.mem_map_of_mem _ hb)
    rw [hx] at hax hbx
    simp only [List.mem_singleton] at hax hbx
    exact hab (hax.trans hbx.symm)
  · intro k hk f hf
    simp only [classify] at hk
    split at hk
    · cases hk
    · split at hk
      · exact absurd (Except.ok.inj hk) (by simp)
      · rename_i h1 h2
        have h1x : (ss.map findKey).dedup.length = 1 := not_not.mp h1
        obtain ⟨x, hx⟩ := List.length_eq_one.mp h1x
        have hfx : findKey f ∈ (ss.map findKey).dedup :=
          List.mem_dedup.mpr (List.mem_map_of_mem _ hf)
        rw [hx] at hfx
        simp only [List.mem_singleton] at hfx
        cases ss with
        | nil => cases hf
        | cons s0 rest =>
          have h0 : findKey s0 ∈ ((s0 :: rest).map findKey).dedup :=
            List.mem_dedup.mpr (List.mem_map_of_mem _ (by simp))
          rw [hx] at h0
          simp only [List.mem_singleton] at h0
          have hhead := Except.ok.inj hk
          simp only [List.map_cons, List.headD_cons] at hhead
          rw [hfx, ← h0, hhead]
  · intro f hf
    obtain ⟨pre, post, hp⟩ := pyJoin_mem_decomp "\n" ss f hf
    refine ⟨"file mismatch:\n" ++ pre, post, ?_⟩
    simp only [errMsg]
    rw [hp, String.append_assoc]

/-- Witness for C7: a two-file group with differing keys errors with the
enumerated mismatch; a consistent group returns its shared key. -/
theorem category_group_consistency_witness :
    classify (fun s => if s = "a.tif" then some "k1" else some "k2")
        (.group ["a.tif", "b.tif"]) = .error (.mismatch ["a.tif", "b.tif"]) ∧
    (∀ f ∈ (["a.tif", "b.tif"] : List String), ∃ pre post,
      errMsg (.mismatch ["a.tif", "b.tif"]) = pre ++ (f ++ post)) :=
  ⟨(category_group_consistency (fun s => if s = "a.tif" then some "k1" else some "k2")
      ["a.tif", "b.tif"]).1 ⟨"a.tif", by decide, "b.tif", by decide, by decide⟩,
   (category_group_consistency (fun s => if s = "a.tif" then some "k1" else some "k2")
      ["a.tif", "b.tif"]).2.2⟩

/-- C8: the water-body mask FileNotFoundError is raised exactly when a
mask path was supplied, the elevation source is not GETASSE30, and the
file at the path does not exist; with no mask path the data-mask step
proceeds without error. -/
theorem wbm_check (demType dmPath : String) (fs : FS) (wv : String) :
    (dmPhase (some wv) demType dmPath fs = .error (.fileNotFound wv) ↔
      (demType ≠ "GETASSE30" ∧ wv ∉ fs)) ∧
    (∃ r, dmPhase none demType dmPath fs = .ok r) ∧
    (∀ e, dmPhase none demType dmPath fs ≠ .error e) := by
  refine ⟨?_, ⟨writeIfAbsent .dataMask dmPath fs, rfl⟩, fun e he => by cases he⟩
  constructor
  · intro he
    simp only [dmPhase] at he
    split at he
    · assumption
    · cases he
  · intro hc
    simp only [dmPhase]
    rw [if_pos hc]

/-- Witness for C8: a supplied but missing mask with a non-GETASSE30
elevation source errors; with no mask path the phase succeeds. -/
theorem wbm_check_witness :
    (dmPhase (some "w/T01_WBM.tif") "SRTM" "m/q-dm.tif" [] =
        .error (.fileNotFound "w/T01_WBM.tif") ↔
      (("SRTM" : String) ≠ "GETASSE30" ∧ "w/T01_WBM.tif" ∉ ([] : FS))) ∧
    (∃ r, dmPhase none "SRTM" "m/q-dm.tif" [] = .ok r) ∧
    (∀ e, dmPhase none "SRTM" "m/q-dm.tif" [] ≠ .error e) :=
  wbm_check "SRTM" "m/q-dm.tif" [] "w/T01_WBM.tif"

end S1NRB
